import Mathlib

/-!
# Hospital app browser helpers (`app/static/js/main.js`)

A shallow embedding of the helper module: the timer queue of the event loop,
the debounce wrapper, the toast notifier, the delete-confirmation slot and the
request helpers, with the properties the specification states about them.

Conventions of the embedding:

* time is a natural number of milliseconds; `setTimeout` keeps the requested
  delay as a signed 32-bit integer, a timer set at time `n` with kept delay `d`
  is due at `n + d`, and timers fire in order of due time and, among equal due
  times, of creation; a call made at an instant runs before the timers due at
  that instant, which run once the running script has returned;
* a JavaScript string is its list of UTF-16 code units;
* an `async` function is a function from the behaviour of the transport to an
  outcome (a value, or a fault standing for a rejected promise) together with
  the effects it had (requests issued, document changes).
-/

namespace HospitalApp

/-! ## Strings -/

/-- A JavaScript string: its UTF-16 code units. -/
abbrev JSString := List Nat

/-- UTF-16 code units of one Unicode scalar value. -/
def utf16Char (c : Char) : List Nat :=
  if c.toNat < 0x10000 then [c.toNat]
  else [0xD800 + (c.toNat - 0x10000) / 0x400, 0xDC00 + (c.toNat - 0x10000) % 0x400]

/-- The JavaScript string written by a literal of the source. -/
def utf16 (s : String) : JSString :=
  s.toList.flatMap utf16Char

/-- Decimal digits of a natural number, as `String(n)` writes them. -/
def natToJS (n : Nat) : JSString :=
  (Nat.toDigits 10 n).map Char.toNat

/-- White space and line terminators, the code units `String.prototype.trim` strips. -/
def isTrimmable (c : Nat) : Bool :=
  c == 0x09 || c == 0x0A || c == 0x0B || c == 0x0C || c == 0x0D || c == 0x20 || c == 0xA0 ||
  c == 0x1680 || (0x2000 ≤ c && c ≤ 0x200A) || c == 0x2028 || c == 0x2029 || c == 0x202F ||
  c == 0x205F || c == 0x3000 || c == 0xFEFF

/-- Model of `String.prototype.trim`. -/
def trim (s : JSString) : JSString :=
  ((s.dropWhile isTrimmable).reverse.dropWhile isTrimmable).reverse

/-- Characters `encodeURIComponent` leaves as they are: letters, digits and
`- _ . ! ~ * ' ( )`. -/
def isUnreserved (c : Nat) : Bool :=
  (0x41 ≤ c && c ≤ 0x5A) || (0x61 ≤ c && c ≤ 0x7A) || (0x30 ≤ c && c ≤ 0x39) ||
  c == 0x2D || c == 0x5F || c == 0x2E || c == 0x21 || c == 0x7E || c == 0x2A || c == 0x27 ||
  c == 0x28 || c == 0x29

/-- Leading (high) surrogate code unit. -/
def isLeadSurrogate (c : Nat) : Bool := 0xD800 ≤ c && c ≤ 0xDBFF

/-- Trailing (low) surrogate code unit. -/
def isTrailSurrogate (c : Nat) : Bool := 0xDC00 ≤ c && c ≤ 0xDFFF

/-- UTF-8 octets of a code point. -/
def utf8Octets (cp : Nat) : List Nat :=
  if cp < 0x80 then [cp]
  else if cp < 0x800 then [0xC0 + cp / 0x40, 0x80 + cp % 0x40]
  else if cp < 0x10000 then [0xE0 + cp / 0x1000, 0x80 + cp / 0x40 % 0x40, 0x80 + cp % 0x40]
  else [0xF0 + cp / 0x40000, 0x80 + cp / 0x1000 % 0x40, 0x80 + cp / 0x40 % 0x40,
        0x80 + cp % 0x40]

/-- Upper-case hexadecimal digit. -/
def hexDigit (n : Nat) : Nat :=
  if n < 10 then 0x30 + n else 0x41 + (n - 10)

/-- Percent-escape of a list of octets. -/
def percentEscape (octets : List Nat) : JSString :=
  octets.flatMap (fun o => [0x25, hexDigit (o / 16), hexDigit (o % 16)])

/-- Model of `encodeURIComponent` on a string (the `Encode` operation of ECMA-262):
`none` stands for the `URIError` thrown when the string has an unpaired surrogate. -/
def encodeURIComponent : JSString → Option JSString
  | [] => some []
  | [c] =>
    if isUnreserved c then some [c]
    else if isLeadSurrogate c || isTrailSurrogate c then none
    else some (percentEscape (utf8Octets c))
  | c :: d :: rest =>
    if isUnreserved c then (encodeURIComponent (d :: rest)).map (fun e => c :: e)
    else if isLeadSurrogate c then
      if isTrailSurrogate d then
        (encodeURIComponent rest).map (fun e =>
          percentEscape (utf8Octets ((c - 0xD800) * 0x400 + (d - 0xDC00) + 0x10000)) ++ e)
      else none
    else if isTrailSurrogate c then none
    else (encodeURIComponent (d :: rest)).map (fun e => percentEscape (utf8Octets c) ++ e)

/-! ## JSON values and `JSON.parse` -/

/-- A value `JSON.parse` can return; a number is kept as the decimal `mantissa * 10 ^ exp`
its text denotes. -/
inductive Json where
  | null
  | bool (b : Bool)
  | num (mantissa : Int) (exp : Int)
  | str (s : JSString)
  | arr (items : List Json)
  | obj (members : List (JSString × Json))

/-- Value of the property `key` of an object given by its members in source order: the
last member of that name, `none` standing for `undefined`. -/
def lookupMember (key : JSString) (members : List (JSString × Json)) : Option Json :=
  (members.reverse.find? (fun kv => kv.1 == key)).map (fun kv => kv.2)

/-- JSON white space. -/
def isJsonSpace (c : Nat) : Bool :=
  c == 0x20 || c == 0x09 || c == 0x0A || c == 0x0D

/-- Drop leading JSON white space. -/
def skipSpace (cs : JSString) : JSString := cs.dropWhile isJsonSpace

/-- Decimal digit code unit. -/
def isDigit (c : Nat) : Bool := 0x30 ≤ c && c ≤ 0x39

/-- Value of a run of decimal digits. -/
def digitsValue (ds : List Nat) : Nat :=
  ds.foldl (fun acc d => acc * 10 + (d - 0x30)) 0

/-- Value of a hexadecimal digit code unit, if it is one. -/
def hexValue (c : Nat) : Option Nat :=
  if isDigit c then some (c - 0x30)
  else if 0x41 ≤ c && c ≤ 0x46 then some (c - 0x41 + 10)
  else if 0x61 ≤ c && c ≤ 0x66 then some (c - 0x61 + 10)
  else none

/-- The characters of a JSON string after its opening quote, up to and including the
closing quote; returns the string and the rest of the input. -/
def parseChars : JSString → Option (JSString × JSString)
  | [] => none
  | c :: rest =>
    if c == 0x22 then some ([], rest)
    else if c == 0x5C then
      match rest with
      | [] => none
      | e :: rest2 =>
        if e == 0x75 then
          match rest2 with
          | h1 :: h2 :: h3 :: h4 :: rest3 =>
            match hexValue h1, hexValue h2, hexValue h3, hexValue h4, parseChars rest3 with
            | some a, some b, some c4, some d, some (str, out) =>
              some ((a * 0x1000 + b * 0x100 + c4 * 0x10 + d) :: str, out)
            | _, _, _, _, _ => none
          | _ => none
        else
          let unescaped : Option Nat :=
            if e == 0x22 then some 0x22 else if e == 0x5C then some 0x5C
            else if e == 0x2F then some 0x2F else if e == 0x62 then some 0x08
            else if e == 0x66 then some 0x0C else if e == 0x6E then some 0x0A
            else if e == 0x72 then some 0x0D else if e == 0x74 then some 0x09
            else none
          match unescaped, parseChars rest2 with
          | some u, some (str, out) => some (u :: str, out)
          | _, _ => none
    else if c < 0x20 then none
    else
      match parseChars rest with
      | some (str, out) => some (c :: str, out)
      | none => none

/-- A JSON number at the head of the input: `-? int frac? exp?`. -/
def parseNumber (cs : JSString) : Option (Json × JSString) :=
  let neg := cs.head? == some 0x2D
  let cs1 := if neg then cs.drop 1 else cs
  let intDigits := cs1.takeWhile isDigit
  let cs2 := cs1.dropWhile isDigit
  if intDigits == [] || (intDigits.length > 1 && intDigits.head? == some 0x30) then none
  else
    let hasFrac := cs2.head? == some 0x2E
    let fracDigits := if hasFrac then (cs2.drop 1).takeWhile isDigit else []
    let cs3 := if hasFrac then (cs2.drop 1).dropWhile isDigit else cs2
    if hasFrac && fracDigits == [] then none
    else
      let hasExp := cs3.head? == some 0x65 || cs3.head? == some 0x45
      let cs4 := if hasExp then cs3.drop 1 else cs3
      let expNeg := hasExp && cs4.head? == some 0x2D
      let cs5 := if hasExp && (cs4.head? == some 0x2D || cs4.head? == some 0x2B)
        then cs4.drop 1 else cs4
      let expDigits := if hasExp then cs5.takeWhile isDigit else []
      let cs6 := if hasExp then cs5.dropWhile isDigit else cs5
      if hasExp && expDigits == [] then none
      else
        let m : Int := digitsValue (intDigits ++ fracDigits)
        let e : Int := digitsValue expDigits
        some (Json.num (if neg then -m else m)
          ((if expNeg then -e else e) - fracDigits.length), cs6)

/-- The elements of an array after its first value position, given the parser of one
value: `value (, value)* ]`. -/
def parseElements (value : JSString → Option (Json × JSString)) :
    Nat → JSString → List Json → Option (Json × JSString)
  | 0, _, _ => none
  | n + 1, cs, acc =>
    match value cs with
    | none => none
    | some (v, rest) =>
      match skipSpace rest with
      | c :: rest2 =>
        if c == 0x2C then parseElements value n rest2 (acc ++ [v])
        else if c == 0x5D then some (Json.arr (acc ++ [v]), rest2)
        else none
      | [] => none

/-- The members of an object after its opening brace, given the parser of one value:
`string : value (, string : value)* }`. -/
def parseMembers (value : JSString → Option (Json × JSString)) :
    Nat → JSString → List (JSString × Json) → Option (Json × JSString)
  | 0, _, _ => none
  | n + 1, cs, acc =>
    match skipSpace cs with
    | q :: rest =>
      if q == 0x22 then
        match parseChars rest with
        | none => none
        | some (key, rest2) =>
          match skipSpace rest2 with
          | colon :: rest3 =>
            if colon == 0x3A then
              match value rest3 with
              | none => none
              | some (v, rest4) =>
                match skipSpace rest4 with
                | c :: rest5 =>
                  if c == 0x2C then parseMembers value n rest5 (acc ++ [(key, v)])
                  else if c == 0x7D then some (Json.obj (acc ++ [(key, v)]), rest5)
                  else none
                | [] => none
            else none
          | [] => none
      else none
    | [] => none

/-- A keyword at the head of the input. -/
def parseKeyword (word : JSString) (v : Json) (cs : JSString) : Option (Json × JSString) :=
  if cs.take word.length == word then some (v, cs.drop word.length) else none

/-- One JSON value, with white space before it; `depth` bounds the nesting. -/
def parseValue : Nat → JSString → Option (Json × JSString)
  | 0, _ => none
  | depth + 1, cs =>
    match skipSpace cs with
    | [] => none
    | c :: rest =>
      if c == 0x7B then
        match skipSpace rest with
        | d :: rest2 =>
          if d == 0x7D then some (Json.obj [], rest2)
          else parseMembers (parseValue depth) rest.length rest []
        | [] => none
      else if c == 0x5B then
        match skipSpace rest with
        | d :: rest2 =>
          if d == 0x5D then some (Json.arr [], rest2)
          else parseElements (parseValue depth) rest.length rest []
        | [] => none
      else if c == 0x22 then
        (parseChars rest).map (fun r => (Json.str r.1, r.2))
      else if c == 0x74 then parseKeyword (utf16 "true") (Json.bool true) (c :: rest)
      else if c == 0x66 then parseKeyword (utf16 "false") (Json.bool false) (c :: rest)
      else if c == 0x6E then parseKeyword (utf16 "null") Json.null (c :: rest)
      else parseNumber (c :: rest)

/-- Model of `JSON.parse` on a string: `none` stands for the `SyntaxError` thrown on text
that is not JSON. -/
def jsonParse (text : JSString) : Option Json :=
  match parseValue (text.length + 1) text with
  | some (v, rest) => if skipSpace rest == [] then some v else none
  | none => none

/-! ## Delete confirmation (`deleteFormToSubmit`, `showDeleteModal`, lines 36-54) -/

/-- The elements of the page the delete helpers look up by id. -/
structure DeletePage where
  hasDeleteMessage : Bool
  hasConfirmDeleteModal : Bool
  hasConfirmDeleteBtn : Bool
deriving DecidableEq, Repr

/-- State of the delete helpers: the module variable `deleteFormToSubmit` (`none` is
`null`), whether the click listener is attached to `#confirmDeleteBtn`, the forms
submitted so far, the text of `#deleteMessage`, how often the modal was shown and the
prompts passed to `confirm`. -/
structure DeleteState (F : Type) where
  deleteFormToSubmit : Option F
  listening : Bool
  submitted : List F
  deleteMessage : Option JSString
  modalShown : Nat
  prompts : List JSString
deriving DecidableEq, Repr

/-- State after the script has been evaluated: `let deleteFormToSubmit = null`. -/
def DeleteState.init (F : Type) : DeleteState F :=
  { deleteFormToSubmit := none, listening := false, submitted := [], deleteMessage := none,
    modalShown := 0, prompts := [] }

/-- The `DOMContentLoaded` listener: attach the click listener when the button exists. -/
def domContentLoaded {F : Type} (pg : DeletePage) (s : DeleteState F) : DeleteState F :=
  if pg.hasConfirmDeleteBtn then { s with listening := true } else s

/-- The click listener of `#confirmDeleteBtn`:
`if (deleteFormToSubmit) deleteFormToSubmit.submit()`. -/
def confirmDeleteBtnClick {F : Type} (s : DeleteState F) : DeleteState F :=
  match s.deleteFormToSubmit with
  | some f => { s with submitted := s.submitted ++ [f] }
  | none => s

/-- Activating the confirm button runs its click listener, when one is attached. -/
def activateConfirm {F : Type} (s : DeleteState F) : DeleteState F :=
  if s.listening then confirmDeleteBtnClick s else s

/-- Model of `showDeleteModal(type, name, form)`; `accepts` is the answer the user gives
to `confirm` on a page without the modal. -/
def showDeleteModal {F : Type} (pg : DeletePage) (accepts : Bool) (type name : JSString)
    (form : F) (s : DeleteState F) : DeleteState F :=
  let s1 := { s with deleteFormToSubmit := some form }
  let s2 :=
    if pg.hasDeleteMessage then
      { s1 with deleteMessage := some (utf16 "Are you sure you want to delete the " ++ type ++
          utf16 " \"" ++ name ++ utf16 "\"? This will deactivate their account.") }
    else s1
  if !pg.hasConfirmDeleteModal then
    let s3 := { s2 with prompts := s2.prompts ++
      [utf16 "Delete " ++ type ++ utf16 " " ++ name ++ utf16 "?"] }
    if accepts then { s3 with submitted := s3.submitted ++ [form] } else s3
  else
    { s2 with modalShown := s2.modalShown + 1 }

/-! ## Timers -/

/-- A pending timer: handle, due time and the callback it will run. -/
structure Timer (κ : Type) where
  id : Nat
  due : Nat
  cb : κ
deriving DecidableEq, Repr

/-- Queue a timer behind every pending timer that is due no later than it. -/
def insertTimer {κ : Type} (tm : Timer κ) : List (Timer κ) → List (Timer κ)
  | [] => [tm]
  | x :: xs => if x.due ≤ tm.due then x :: insertTimer tm xs else tm :: x :: xs

/-- Model of `clearTimeout(h)`: `null` and handles of timers that are no longer pending
are ignored. -/
def clearTimeout {κ : Type} (h : Option Nat) (p : List (Timer κ)) : List (Timer κ) :=
  match h with
  | none => p
  | some i => p.filter (fun x => x.id != i)

/-- The delay `setTimeout` keeps for a requested number of milliseconds: the request is
converted to a signed 32-bit integer (modulo 2^32), and a negative result counts as 0.
Requests up to 2147483647 are kept as they are; 2147483648 is kept as 0. -/
def timerDelay (ms : Nat) : Nat :=
  if ms % 4294967296 < 2147483648 then ms % 4294967296 else 0

/-- The timers of a queue that are due at time `T`, as `(firing time, callback)` in
queue order, and the timers still pending afterwards. -/
def fireDue {κ : Type} (T : Nat) (p : List (Timer κ)) : List (Nat × κ) × List (Timer κ) :=
  ((p.filter (fun x => decide (x.due ≤ T))).map (fun x => (x.due, x.cb)),
   p.filter (fun x => !decide (x.due ≤ T)))

/-- The timers of a queue that are due before time `τ`, and the timers still pending
afterwards: what has run when a script starts at time `τ`. -/
def fireBefore {κ : Type} (τ : Nat) (p : List (Timer κ)) : List (Nat × κ) × List (Timer κ) :=
  ((p.filter (fun x => decide (x.due < τ))).map (fun x => (x.due, x.cb)),
   p.filter (fun x => !decide (x.due < τ)))

/-! ## Toasts (`showToast`, lines 13-33) -/

/-- A toast element: its identity, its `className`, the markup assigned to its
`innerHTML`, and whether the close button is part of its content once that markup is
parsed (`none`: the message holds markup whose parse is not modelled). -/
structure ToastEl where
  el : Nat
  className : JSString
  innerHTML : JSString
  closeControl : Option Bool
deriving DecidableEq, Repr

/-- The part of the page `showToast` works on: the clock, the elements whose id is
`toastContainer` in document order, each with its children, and the pending removal
timers (the callback of a timer is the element its `toast.remove()` removes). -/
structure ToastDoc where
  now : Nat
  nextEl : Nat
  nextTimer : Nat
  containers : List (List ToastEl)
  pending : List (Timer Nat)
deriving DecidableEq, Repr

/-- The four severities of the specification. -/
inductive Severity
  | info | success | warning | danger
deriving DecidableEq, Repr

/-- The `type` argument a severity is passed as. -/
def Severity.name : Severity → JSString
  | .info => utf16 "info"
  | .success => utf16 "success"
  | .warning => utf16 "warning"
  | .danger => utf16 "danger"

/-- Value of `toast.className` for a given `type`. -/
def toastClass (type : JSString) : JSString :=
  utf16 "toast align-items-center text-bg-" ++ type ++ utf16 " border-0 show"

/-- Value assigned to `toast.innerHTML`: the message followed by the close button. -/
def toastHTML (message : JSString) : JSString :=
  utf16 "<div class=\"d-flex\"><div class=\"toast-body\">" ++ message ++
  utf16 ("</div>\n    <button type=\"button\" class=\"btn-close btn-close-white me-2 m-auto\" " ++
    "onclick=\"this.closest(\x27.toast\x27).remove()\"></button></div>")

/-- Whether the close button that follows the message in the markup of a toast is part
of the parsed content. A message without `<` is text, and the button follows it
(`some true`). A message that is text, then `<!--`, then neither `-` nor `>` opens a
comment that nothing closes, the markup after the message holding no `--`: the comment
runs to the end and swallows the button (`some false`). The parse of any other message
is not modelled (`none`). -/
def closeControlAfter (message : JSString) : Option Bool :=
  let markup := message.dropWhile (fun c => c != 0x3C)
  if markup == [] then some true
  else if markup.take 4 == utf16 "<!--" &&
      (markup.drop 4).all (fun c => c != 0x2D && c != 0x3E) then some false
  else none

/-- Default of the `timeout` parameter of `showToast`. -/
def defaultToastTimeout : Nat := 3500

/-- All toast elements of the page. -/
def ToastDoc.toasts (d : ToastDoc) : List ToastEl := d.containers.flatten

/-- Model of `showToast(message, type, timeout)`: look the container up, create it when
there is none, append the toast to it and schedule `toast.remove()`. -/
def showToast (message type : JSString) (timeout : Nat) (d : ToastDoc) : ToastDoc :=
  let toast : ToastEl :=
    ⟨d.nextEl, toastClass type, toastHTML message, closeControlAfter message⟩
  { d with
    nextEl := d.nextEl + 1
    nextTimer := d.nextTimer + 1
    containers :=
      match d.containers with
      | [] => [[toast]]
      | c :: cs => (c ++ [toast]) :: cs
    pending := insertTimer ⟨d.nextTimer, d.now + timerDelay timeout, d.nextEl⟩ d.pending }

/-- Model of `el.remove()` for a toast element. -/
def removeToast (el : Nat) (cs : List (List ToastEl)) : List (List ToastEl) :=
  cs.map (fun c => c.filter (fun x => x.el != el))

/-- Let the clock reach `T`: every removal timer due by then runs. -/
def ToastDoc.advance (T : Nat) (d : ToastDoc) : ToastDoc :=
  { d with
    now := max d.now T
    pending := (fireDue T d.pending).2
    containers := (fireDue T d.pending).1.foldl (fun cs f => removeToast f.2 cs) d.containers }

/-- The user clicks the close button of a toast. -/
def ToastDoc.dismiss (el : Nat) (d : ToastDoc) : ToastDoc :=
  { d with containers := removeToast el d.containers }

/-- What happens on the page as far as toasts are concerned. -/
inductive ToastEvent
  | toast (message type : JSString) (timeout : Nat)
  | wait (T : Nat)
  | close (el : Nat)
deriving DecidableEq, Repr

/-- One event. -/
def ToastDoc.step (d : ToastDoc) : ToastEvent → ToastDoc
  | .toast m t ms => showToast m t ms d
  | .wait T => d.advance T
  | .close el => d.dismiss el

/-- A sequence of events. -/
def ToastDoc.run (d : ToastDoc) (evs : List ToastEvent) : ToastDoc :=
  evs.foldl ToastDoc.step d

/-! ## Requests -/

/-- What an operation can fail with; a fault that leaves an `async` function is the
rejection of the promise it returned. -/
inductive Fault
  /-- Rejection of `fetch`: the request could not be made or answered. -/
  | network
  /-- Reading the response body (`resp.text()`, `resp.json()`) rejected. -/
  | bodyRead
  /-- The `URIError` of `encodeURIComponent`. -/
  | uri
  /-- The `TypeError` of reading a property of `null`. -/
  | nullAccess
  /-- The `TypeError` of `JSON.stringify` (cyclic structure, BigInt). -/
  | stringify
  /-- What the conversion of a value to a string throws: the `TypeError` for a symbol,
  or what the conversion method of an object throws. -/
  | conversion
deriving DecidableEq, Repr

/-- A call of `fetch`; the method of a call without one is `GET`. -/
structure Request (β : Type) where
  method : JSString
  url : JSString
  headers : List (JSString × JSString)
  body : Option β
  credentials : JSString
deriving DecidableEq, Repr

/-- What the transport does with a request: the promise of `fetch` rejects, or it
resolves to a response with a status and a body (`none`: reading the body fails). -/
inductive FetchResult
  | rejected
  | response (status : Nat) (body : Option JSString)
deriving DecidableEq, Repr

/-- Value of `resp.ok`: the status is in the range 200-299. -/
def isOk (status : Nat) : Bool := 200 ≤ status && status ≤ 299

/-- A run of an `async` function: the requests it issued and how its promise settled. -/
structure Ran (ρ α : Type) where
  requests : List ρ
  outcome : Except Fault α

/-- The two places of the page the anti-forgery token is read from: the `content` of
`meta[name="csrf-token"]` and the `value` of `input[name="csrf_token"]`, each `none` when
the element is absent. -/
structure CsrfPage where
  metaContent : Option JSString
  hiddenValue : Option JSString
deriving DecidableEq, Repr

/-- Model of `getCSRFToken()` (lines 5-10); `none` is `null`. -/
def getCSRFToken (pg : CsrfPage) : Option JSString :=
  match pg.metaContent with
  | some content => some content
  | none => pg.hiddenValue

/-- The header the request helpers add when `csrf` is truthy. -/
def csrfHeader (csrf : Option JSString) : List (JSString × JSString) :=
  match csrf with
  | some tok => if tok == [] then [] else [(utf16 "X-CSRF-Token", tok)]
  | none => []

/-- Result object of `ajaxPostJson`. -/
structure JsonReply where
  ok : Bool
  status : Nat
  data : Json

/-- Model of `ajaxPostJson(url, jsonObj, method)` (lines 57-70). `parse` is `JSON.parse`
and `stringify` is `JSON.stringify` on the payload (`none`: it returns `undefined`). -/
def ajaxPostJson {P : Type} (parse : JSString → Option Json)
    (stringify : P → Except Fault (Option JSString)) (pg : CsrfPage)
    (transport : Request JSString → FetchResult) (url : JSString) (jsonObj : P)
    (method : JSString) : Ran (Request JSString) JsonReply :=
  let csrf := getCSRFToken pg
  let headers := (utf16 "Content-Type", utf16 "application/json") :: csrfHeader csrf
  match stringify jsonObj with
  | .error f => ⟨[], .error f⟩
  | .ok body =>
    let req : Request JSString := ⟨method, url, headers, body, utf16 "same-origin"⟩
    match transport req with
    | .rejected => ⟨[req], .error .network⟩
    | .response _ none => ⟨[req], .error .bodyRead⟩
    | .response status (some text) =>
      match parse text with
      | some v => ⟨[req], .ok ⟨isOk status, status, v⟩⟩
      | none => ⟨[req], .ok ⟨isOk status, status, Json.str text⟩⟩

/-- Result object of `ajaxPostForm`. -/
structure FormReply where
  ok : Bool
  status : Nat
  text : JSString
deriving DecidableEq, Repr

/-- Model of `ajaxPostForm(url, formDataObj, method)` (lines 72-83). -/
def ajaxPostForm {Φ : Type} (pg : CsrfPage) (transport : Request Φ → FetchResult)
    (url : JSString) (formDataObj : Φ) (method : JSString) : Ran (Request Φ) FormReply :=
  let csrf := getCSRFToken pg
  let req : Request Φ := ⟨method, url, csrfHeader csrf, some formDataObj, utf16 "same-origin"⟩
  match transport req with
  | .rejected => ⟨[req], .error .network⟩
  | .response _ none => ⟨[req], .error .bodyRead⟩
  | .response status (some text) => ⟨[req], .ok ⟨isOk status, status, text⟩⟩

/-- A run of `ajaxDeleteRow`: requests issued, the page with its toasts afterwards, the
row afterwards and how the promise settled. -/
structure DeleteRowRun where
  requests : List (Request Empty)
  doc : ToastDoc
  row : Option Bool
  outcome : Except Fault Unit

/-- Effect of `if (rowEl && rowEl.parentNode) rowEl.remove()` on the row: `none` is a
missing `rowEl`, `some b` an element that is attached to a parent iff `b`. -/
def removeRow (rowEl : Option Bool) : Option Bool :=
  match rowEl with
  | some true => some false
  | r => r

/-- Model of `ajaxDeleteRow(url, rowEl, successMsg)` (lines 86-105) on the page `d`. -/
def ajaxDeleteRow (pg : CsrfPage) (transport : Request Empty → FetchResult) (url : JSString)
    (rowEl : Option Bool) (successMsg : JSString) (d : ToastDoc) : DeleteRowRun :=
  let noToken : DeleteRowRun :=
    ⟨[], showToast (utf16 "No CSRF token") (utf16 "danger") defaultToastTimeout d, rowEl, .ok ()⟩
  let sends (csrf : JSString) : DeleteRowRun :=
    let req : Request Empty :=
      ⟨utf16 "POST", url, [(utf16 "X-CSRF-Token", csrf)], none, utf16 "same-origin"⟩
    let networkError : DeleteRowRun :=
      ⟨[req], showToast (utf16 "Network error during delete") (utf16 "danger")
        defaultToastTimeout d, rowEl, .ok ()⟩
    match transport req with
    | .rejected => networkError
    | .response status body =>
      if isOk status then
        ⟨[req], showToast successMsg (utf16 "success") defaultToastTimeout d, removeRow rowEl,
          .ok ()⟩
      else
        match body with
        | none => networkError
        | some t =>
          ⟨[req], showToast (utf16 "Delete failed: " ++ (if t == [] then natToJS status else t))
            (utf16 "danger") defaultToastTimeout d, rowEl, .ok ()⟩
  match getCSRFToken pg with
  | none => noToken
  | some csrf => if csrf == [] then noToken else sends csrf

/-- A run of the live-search handler: requests issued, `resultsEl.innerHTML` afterwards
and how the promise settled. -/
structure SearchRun where
  requests : List (Request Empty)
  innerHTML : JSString
  outcome : Except Fault Unit

/-- Content shown when the search answers with a failure status. -/
def searchFailedHTML : JSString := utf16 "<div class=\"text-muted\">Search failed</div>"

/-- Content shown when the `catch` of the handler runs. -/
def networkErrorHTML : JSString := utf16 "<div class=\"text-muted\">Network error</div>"

/-- Wait of the debounce `bindLiveSearch` wraps its handler in. -/
def liveSearchWait : Nat := 350

/-- Model of one firing of the handler `bindLiveSearch(inputEl, resultsEl, fetchUrl)`
debounces (lines 118-132); `value` is `inputEl.value` at the firing. -/
def liveSearch (fetchUrl : JSString) (transport : Request Empty → FetchResult)
    (value : JSString) : SearchRun :=
  let q := trim value
  if q == [] then ⟨[], [], .ok ()⟩
  else
    match encodeURIComponent q with
    | none => ⟨[], networkErrorHTML, .ok ()⟩
    | some e =>
      let req : Request Empty :=
        ⟨utf16 "GET", fetchUrl ++ utf16 "?q=" ++ e, [], none, utf16 "same-origin"⟩
      match transport req with
      | .rejected => ⟨[req], networkErrorHTML, .ok ()⟩
      | .response status body =>
        if isOk status then
          match body with
          | some html => ⟨[req], html, .ok ()⟩
          | none => ⟨[req], networkErrorHTML, .ok ()⟩
        else ⟨[req], searchFailedHTML, .ok ()⟩

/-- A value passed to `checkAvailability`. `int` is a number that is a safe integer (of
magnitude below 2^53, where `String(n)` is its plain decimal digits). `other` is any
truthy value that is not listed (an object, a number that is neither a safe integer nor
`NaN`), given with the string its conversion gives, `none` when that conversion throws. -/
inductive Arg
  | undefined
  | null
  | bool (b : Bool)
  | int (n : Int) (safe : n.natAbs < 9007199254740992 := by decide)
  | nan
  | str (s : JSString)
  | symbol
  | other (text : Option JSString)

/-- Truthiness of a value, as `!x` tests it. -/
def Arg.truthy : Arg → Bool
  | .undefined => false
  | .null => false
  | .bool b => b
  | .int n _ => n != 0
  | .nan => false
  | .str s => s != []
  | .symbol => true
  | .other _ => true

/-- Decimal digits of an integer, with its sign. -/
def intToJS : Int → JSString
  | Int.ofNat n => natToJS n
  | Int.negSucc n => 0x2D :: natToJS (n + 1)

/-- Conversion of a value to a string, as a template literal and `encodeURIComponent`
apply it; it throws for a symbol and for a value whose own conversion throws. -/
def Arg.toJS : Arg → Except Fault JSString
  | .undefined => .ok (utf16 "undefined")
  | .null => .ok (utf16 "null")
  | .bool true => .ok (utf16 "true")
  | .bool false => .ok (utf16 "false")
  | .int n _ => .ok (intToJS n)
  | .nan => .ok (utf16 "NaN")
  | .str s => .ok s
  | .symbol => .error .conversion
  | .other (some text) => .ok text
  | .other none => .error .conversion

/-- Model of `encodeURIComponent(x)`: the value is converted to a string, then encoded. -/
def encodeArg (x : Arg) : Except Fault JSString :=
  match x.toJS with
  | .error f => .error f
  | .ok s =>
    match encodeURIComponent s with
    | some e => .ok e
    | none => .error .uri

/-- The url of line 139, its substitutions evaluated from left to right. -/
def checkSlotUrl (doctorId dateStr timeStr : Arg) : Except Fault JSString :=
  match doctorId.toJS with
  | .error f => .error f
  | .ok id =>
    match encodeArg dateStr with
    | .error f => .error f
    | .ok date =>
      match encodeArg timeStr with
      | .error f => .error f
      | .ok time =>
        .ok (utf16 "/api/check_slot?doctor_id=" ++ id ++ utf16 "&date=" ++ date ++
          utf16 "&time=" ++ time)

/-- Result object of `checkAvailability`. For `conflict`, `none` is an object without
that property, `some none` the property with value `undefined`. -/
structure Availability where
  ok : Bool
  conflict : Option (Option Json)

/-- Value of `data.conflict` for a parsed body: reading a property of `null` throws,
an object gives its member, any other value gives `undefined`. -/
def conflictOf : Json → Except Fault (Option Json)
  | .null => .error .nullAccess
  | .obj members => .ok (lookupMember (utf16 "conflict") members)
  | _ => .ok none

/-- Model of `checkAvailability(doctorId, dateStr, timeStr)` (lines 137-148). The url is
built before the `try` block is entered; `parse` is the JSON parse of `resp.json()`. -/
def checkAvailability (parse : JSString → Option Json)
    (transport : Request Empty → FetchResult) (doctorId dateStr timeStr : Arg) :
    Ran (Request Empty) Availability :=
  if !doctorId.truthy || !dateStr.truthy || !timeStr.truthy then
    ⟨[], .ok ⟨false, some (some (Json.bool false))⟩⟩
  else
    match checkSlotUrl doctorId dateStr timeStr with
    | .error f => ⟨[], .error f⟩
    | .ok url =>
      let req : Request Empty := ⟨utf16 "GET", url, [], none, utf16 "same-origin"⟩
      match transport req with
      | .rejected => ⟨[req], .ok ⟨false, none⟩⟩
      | .response status body =>
        if !isOk status then ⟨[req], .ok ⟨false, none⟩⟩
        else
          match body.bind parse with
          | none => ⟨[req], .ok ⟨false, none⟩⟩
          | some data =>
            match conflictOf data with
            | .error _ => ⟨[req], .ok ⟨false, none⟩⟩
            | .ok conflict => ⟨[req], .ok ⟨true, some conflict⟩⟩

/-! ## Debounce (`debounce`, lines 108-114) -/

/-- State of one debounced wrapper: the clock, the closure variable `t`, the timer
queue, and the log of executions of `fn` (time, arguments). -/
structure Debounced (α : Type) where
  now : Nat
  t : Option Nat
  nextId : Nat
  pending : List (Timer α)
  calls : List (Nat × α)
deriving DecidableEq, Repr

/-- Model of `debounce(fn, wait)`: `let t = null`, nothing scheduled, `fn` not yet run. -/
def debounce (α : Type) : Debounced α :=
  { now := 0, t := none, nextId := 0, pending := [], calls := [] }

/-- One invocation of the wrapper with `args`:
`clearTimeout(t); t = setTimeout(() => fn.apply(this, args), wait)`. -/
def Debounced.invoke {α : Type} (wait : Nat) (args : α) (s : Debounced α) : Debounced α :=
  { s with
    t := some s.nextId
    nextId := s.nextId + 1
    pending :=
      insertTimer ⟨s.nextId, s.now + timerDelay wait, args⟩ (clearTimeout s.t s.pending) }

/-- Let the clock reach `T`: every timer due by then runs `fn` with its arguments. -/
def Debounced.advance {α : Type} (T : Nat) (s : Debounced α) : Debounced α :=
  { s with
    now := max s.now T
    pending := (fireDue T s.pending).2
    calls := s.calls ++ (fireDue T s.pending).1 }

/-- A script starts at time `τ`: the timers due before `τ` have run `fn`, those due at `τ`
wait for the script to return. -/
def Debounced.arrive {α : Type} (τ : Nat) (s : Debounced α) : Debounced α :=
  { s with
    now := max s.now τ
    pending := (fireBefore τ s.pending).2
    calls := s.calls ++ (fireBefore τ s.pending).1 }

/-- A sequence of invocations, each given with the time at which it happens. -/
def Debounced.run {α : Type} (wait : Nat) (s : Debounced α) : List (Nat × α) → Debounced α
  | [] => s
  | (τ, a) :: evs => Debounced.run wait ((s.arrive τ).invoke wait a) evs

/-- The toast created as element `e` is no longer on the page, and no later toast will
be that element. -/
def ToastDoc.Gone (e : Nat) (d : ToastDoc) : Prop :=
  e < d.nextEl ∧ ∀ x ∈ d.toasts, x.el ≠ e

/-- An event that leaves alone a toast that is element `e` with removal due at `D`: a
wait that ends before `D`, the close button of another toast, a further toast. -/
def ToastEvent.spares (e D : Nat) : ToastEvent → Prop
  | .toast _ _ _ => True
  | .wait T => T < D
  | .close el => el ≠ e

/-- The toast `x` is on the page and no timer will remove it before time `D`. -/
def ToastDoc.Kept (x : ToastEl) (D : Nat) (d : ToastDoc) : Prop :=
  x ∈ d.toasts ∧ x.el < d.nextEl ∧ ∀ tm ∈ d.pending, tm.cb = x.el → D ≤ tm.due

/-- The toast created as element `e` has its removal pending for time `D`, unless it is
gone already. -/
def ToastDoc.Scheduled (e D : Nat) (d : ToastDoc) : Prop :=
  e < d.nextEl ∧ ((∃ tm ∈ d.pending, tm.cb = e ∧ tm.due = D) ∨ ∀ x ∈ d.toasts, x.el ≠ e)

/-! ### Timer and toast lemmas -/

theorem mem_insertTimer {κ : Type} (tm x : Timer κ) (p : List (Timer κ)) :
    x ∈ insertTimer tm p ↔ x = tm ∨ x ∈ p := by
  induction p with
  | nil => simp [insertTimer]
  | cons y ys ih =>
    unfold insertTimer
    split
    · simp only [List.mem_cons, ih]
      tauto
    · simp only [List.mem_cons]

theorem mem_removeToast (e : Nat) (x : ToastEl) (cs : List (List ToastEl)) :
    x ∈ (removeToast e cs).flatten ↔ x ∈ cs.flatten ∧ x.el ≠ e := by
  simp only [removeToast, List.mem_flatten, List.mem_map]
  constructor
  · rintro ⟨l, ⟨c, hc, rfl⟩, hx⟩
    rw [List.mem_filter] at hx
    exact ⟨⟨c, hc, hx.1⟩, by simpa using hx.2⟩
  · rintro ⟨⟨c, hc, hx⟩, hne⟩
    exact ⟨_, ⟨c, hc, rfl⟩, List.mem_filter.mpr ⟨hx, by simpa using hne⟩⟩

theorem mem_removeAll (fired : List (Nat × Nat)) (x : ToastEl) :
    ∀ cs : List (List ToastEl),
      x ∈ (fired.foldl (fun cs f => removeToast f.2 cs) cs).flatten ↔
        x ∈ cs.flatten ∧ ∀ f ∈ fired, x.el ≠ f.2 := by
  induction fired with
  | nil => intro cs; simp
  | cons f fs ih =>
    intro cs
    rw [List.foldl_cons, ih, mem_removeToast]
    simp only [List.mem_cons, forall_eq_or_imp]
    tauto

theorem length_removeAll (fired : List (Nat × Nat)) :
    ∀ cs : List (List ToastEl),
      (fired.foldl (fun cs f => removeToast f.2 cs) cs).length = cs.length := by
  induction fired with
  | nil => intro cs; rfl
  | cons f fs ih =>
    intro cs
    rw [List.foldl_cons, ih]
    simp [removeToast]

theorem ToastDoc.mem_advance (T : Nat) (d : ToastDoc) (x : ToastEl) :
    x ∈ (d.advance T).toasts ↔
      x ∈ d.toasts ∧ ∀ tm ∈ d.pending, tm.due ≤ T → x.el ≠ tm.cb := by
  simp only [ToastDoc.toasts, ToastDoc.advance, mem_removeAll, fireDue, List.mem_map,
    List.mem_filter, decide_eq_true_eq]
  constructor
  · rintro ⟨hx, h⟩
    exact ⟨hx, fun tm htm hdue => h (tm.due, tm.cb) ⟨tm, ⟨htm, hdue⟩, rfl⟩⟩
  · rintro ⟨hx, h⟩
    refine ⟨hx, ?_⟩
    rintro f ⟨tm, ⟨htm, hdue⟩, rfl⟩
    exact h tm htm hdue

theorem ToastDoc.step_length (d : ToastDoc) (ev : ToastEvent) (h : d.containers.length = 1) :
    (d.step ev).containers.length = 1 := by
  cases ev with
  | toast m t ms =>
    simp only [ToastDoc.step, showToast]
    match hc : d.containers with
    | [] => simp [hc] at h
    | c :: cs => simpa [hc] using h
  | wait T => simpa [ToastDoc.step, ToastDoc.advance, length_removeAll] using h
  | close el => simpa [ToastDoc.step, ToastDoc.dismiss, removeToast] using h

theorem ToastDoc.run_length (evs : List ToastEvent) :
    ∀ d : ToastDoc, d.containers.length = 1 → (d.run evs).containers.length = 1 := by
  induction evs with
  | nil => intro d h; exact h
  | cons ev evs ih =>
    intro d h
    exact ih (d.step ev) (ToastDoc.step_length d ev h)

theorem mem_showToast (m t : JSString) (ms : Nat) (d : ToastDoc) (x : ToastEl)
    (hx : x ∈ (showToast m t ms d).toasts) : x ∈ d.toasts ∨ x.el = d.nextEl := by
  simp only [ToastDoc.toasts, showToast] at hx
  match hc : d.containers with
  | [] =>
    rw [hc] at hx
    right
    simp at hx
    rw [hx]
  | c :: cs =>
    rw [hc] at hx
    simp only [ToastDoc.toasts, hc]
    simp only [List.flatten_cons, List.mem_append, List.mem_singleton] at hx ⊢
    rcases hx with (hx | hx) | hx
    · exact Or.inl (Or.inl hx)
    · right; rw [hx]
    · exact Or.inl (Or.inr hx)

theorem ToastDoc.gone_step (e : Nat) (d : ToastDoc) (ev : ToastEvent) (h : d.Gone e) :
    (d.step ev).Gone e := by
  obtain ⟨hfresh, hall⟩ := h
  cases ev with
  | toast m t ms =>
    refine ⟨?_, ?_⟩
    · show e < d.nextEl + 1
      omega
    · intro x hx
      rcases mem_showToast m t ms d x hx with h1 | h1
      · exact hall x h1
      · omega
  | wait T =>
    refine ⟨hfresh, ?_⟩
    intro x hx
    rw [ToastDoc.step, ToastDoc.mem_advance] at hx
    exact hall x hx.1
  | close el =>
    refine ⟨hfresh, ?_⟩
    intro x hx
    simp only [ToastDoc.step, ToastDoc.toasts, ToastDoc.dismiss] at hx
    exact hall x ((mem_removeToast el x d.containers).mp hx).1

theorem ToastDoc.gone_run (e : Nat) (evs : List ToastEvent) :
    ∀ d : ToastDoc, d.Gone e → (d.run evs).Gone e := by
  induction evs with
  | nil => intro d h; exact h
  | cons ev evs ih =>
    intro d h
    exact ih (d.step ev) (ToastDoc.gone_step e d ev h)

theorem ToastDoc.scheduled_step (e D : Nat) (d : ToastDoc) (ev : ToastEvent)
    (h : d.Scheduled e D) : (d.step ev).Scheduled e D := by
  obtain ⟨hfresh, hpend⟩ := h
  rcases hpend with ⟨tm, htm, h1, h2⟩ | hall
  · cases ev with
    | toast m t ms =>
      refine ⟨?_, Or.inl ⟨tm, (mem_insertTimer _ _ _).mpr (Or.inr htm), h1, h2⟩⟩
      show e < d.nextEl + 1
      omega
    | wait T =>
      refine ⟨hfresh, ?_⟩
      by_cases hT : D ≤ T
      · right
        intro x hx
        rw [ToastDoc.step, ToastDoc.mem_advance] at hx
        have := hx.2 tm htm (by omega)
        rw [h1] at this
        exact this
      · left
        refine ⟨tm, ?_, h1, h2⟩
        simp only [ToastDoc.step, ToastDoc.advance, fireDue, List.mem_filter]
        exact ⟨htm, by simp; omega⟩
    | close el => exact ⟨hfresh, Or.inl ⟨tm, htm, h1, h2⟩⟩
  · have hg := ToastDoc.gone_step e d ev ⟨hfresh, hall⟩
    exact ⟨hg.1, Or.inr hg.2⟩

theorem ToastDoc.scheduled_run (e D : Nat) (evs : List ToastEvent) :
    ∀ d : ToastDoc, d.Scheduled e D → (d.run evs).Scheduled e D := by
  induction evs with
  | nil => intro d h; exact h
  | cons ev evs ih =>
    intro d h
    exact ih (d.step ev) (ToastDoc.scheduled_step e D d ev h)

theorem ToastDoc.scheduled_wait (e D T : Nat) (d : ToastDoc) (h : d.Scheduled e D)
    (hT : D ≤ T) : (d.advance T).Gone e := by
  obtain ⟨hfresh, hpend⟩ := h
  refine ⟨hfresh, ?_⟩
  intro x hx
  rw [ToastDoc.mem_advance] at hx
  rcases hpend with ⟨tm, htm, h1, h2⟩ | hall
  · have := hx.2 tm htm (by omega)
    rw [h1] at this
    exact this
  · exact hall x hx.1

theorem showToast_scheduled (m t : JSString) (ms : Nat) (d : ToastDoc) :
    (showToast m t ms d).Scheduled d.nextEl (d.now + timerDelay ms) := by
  refine ⟨?_, Or.inl ⟨⟨d.nextTimer, d.now + timerDelay ms, d.nextEl⟩, ?_, rfl, rfl⟩⟩
  · show d.nextEl < d.nextEl + 1
    omega
  · exact (mem_insertTimer _ _ _).mpr (Or.inl rfl)

theorem timerDelay_le (ms : Nat) : timerDelay ms ≤ ms := by
  unfold timerDelay
  split
  · exact Nat.mod_le _ _
  · exact Nat.zero_le _

theorem timerDelay_eq (ms : Nat) (h : ms ≤ 2147483647) : timerDelay ms = ms := by
  unfold timerDelay
  have hm : ms % 4294967296 = ms := Nat.mod_eq_of_lt (by omega)
  rw [hm, if_pos (by omega)]

theorem mem_toasts_of_mem_showToast (m t : JSString) (ms : Nat) (d : ToastDoc) (x : ToastEl)
    (hx : x ∈ d.toasts) : x ∈ (showToast m t ms d).toasts := by
  simp only [ToastDoc.toasts, showToast] at hx ⊢
  match hc : d.containers with
  | [] => simp [hc] at hx
  | c :: cs =>
    rw [hc] at hx
    simp only [List.flatten_cons, List.mem_append, List.mem_singleton] at hx ⊢
    exact hx.elim (fun h => Or.inl (Or.inl h)) Or.inr

theorem ToastDoc.kept_step (x : ToastEl) (D : Nat) (d : ToastDoc) (ev : ToastEvent)
    (h : d.Kept x D) (hev : ev.spares x.el D) : (d.step ev).Kept x D := by
  obtain ⟨hx, hfresh, hdue⟩ := h
  cases ev with
  | toast m t ms =>
    refine ⟨mem_toasts_of_mem_showToast m t ms d x hx, ?_, ?_⟩
    · show x.el < d.nextEl + 1
      omega
    · intro tm htm hcb
      rcases (mem_insertTimer _ _ _).mp htm with h1 | h1
      · rw [h1] at hcb
        simp only at hcb
        omega
      · exact hdue tm h1 hcb
  | wait T =>
    have hT : T < D := hev
    refine ⟨?_, hfresh, ?_⟩
    · rw [ToastDoc.step, ToastDoc.mem_advance]
      refine ⟨hx, ?_⟩
      intro tm htm hle heq
      have := hdue tm htm heq.symm
      omega
    · intro tm htm hcb
      simp only [ToastDoc.step, ToastDoc.advance, fireDue, List.mem_filter] at htm
      exact hdue tm htm.1 hcb
  | close el =>
    have hne : el ≠ x.el := hev
    refine ⟨?_, hfresh, hdue⟩
    simp only [ToastDoc.step, ToastDoc.toasts, ToastDoc.dismiss]
    exact (mem_removeToast el x d.containers).mpr ⟨hx, fun h => hne h.symm⟩

theorem ToastDoc.kept_run (x : ToastEl) (D : Nat) (evs : List ToastEvent) :
    ∀ d : ToastDoc, d.Kept x D → (∀ ev ∈ evs, ev.spares x.el D) → (d.run evs).Kept x D := by
  induction evs with
  | nil => intro d h _; exact h
  | cons ev evs ih =>
    intro d h hall
    exact ih (d.step ev) (ToastDoc.kept_step x D d ev h (hall ev (List.mem_cons_self _ _)))
      (fun e he => hall e (List.mem_cons_of_mem _ he))

theorem closeControlAfter_text (message : JSString) (h : ∀ c ∈ message, c ≠ 0x3C) :
    closeControlAfter message = some true := by
  have hd : message.dropWhile (fun c => c != 0x3C) = [] := by
    rw [List.dropWhile_eq_nil_iff]
    intro c hc
    simpa using h c hc
  unfold closeControlAfter
  simp [hd]

theorem ToastDoc.run_append (d : ToastDoc) (e1 e2 : List ToastEvent) :
    d.run (e1 ++ e2) = (d.run e1).run e2 := by
  simp [ToastDoc.run, List.foldl_append]

/-! ### Debounce lemmas -/

theorem timerDelay_of_lt (ms : Nat) (h : ms < 2147483648) : timerDelay ms = ms := by
  unfold timerDelay
  have hm : ms % 4294967296 = ms := Nat.mod_eq_of_lt (by omega)
  rw [hm, if_pos h]

theorem Debounced.run_armed {α : Type} (w : Nat) (hw : w < 2147483648)
    (evs : List (Nat × α)) :
    ∀ (s : Debounced α) (i : Nat) (prev : Nat × α),
      s.t = some i → s.pending = [⟨i, prev.1 + w, prev.2⟩] → s.now = prev.1 →
      List.Chain (fun a b => a.1 ≤ b.1 ∧ b.1 < a.1 + w) prev evs →
      ∃ j, (Debounced.run w s evs).t = some j ∧
        (Debounced.run w s evs).pending =
          [⟨j, ((prev :: evs).getLast (by simp)).1 + w, ((prev :: evs).getLast (by simp)).2⟩] ∧
        (Debounced.run w s evs).calls = s.calls ∧
        (Debounced.run w s evs).now = ((prev :: evs).getLast (by simp)).1 := by
  induction evs with
  | nil =>
    intro s i prev ht hp hn _
    exact ⟨i, by simpa [Debounced.run] using ht, by simpa [Debounced.run] using hp,
      by simp [Debounced.run], by simpa [Debounced.run] using hn⟩
  | cons e evs ih =>
    intro s i prev ht hp hn hc
    obtain ⟨τ, a⟩ := e
    rw [List.chain_cons] at hc
    obtain ⟨⟨h1, h2⟩, hc⟩ := hc
    simp only at h1 h2
    have hnot : ¬ (prev.1 + w < τ) := by omega
    have key := ih ((s.arrive τ).invoke w a) s.nextId (τ, a)
      (by simp [Debounced.invoke, Debounced.arrive])
      (by simp [Debounced.invoke, Debounced.arrive, hp, fireBefore, hnot, ht, clearTimeout,
            insertTimer, hn, h1, timerDelay_of_lt w hw])
      (by simp [Debounced.invoke, Debounced.arrive, hn, h1])
      hc
    obtain ⟨j, k1, k2, k3, k4⟩ := key
    refine ⟨j, ?_, ?_, ?_, ?_⟩
    · simpa [Debounced.run] using k1
    · simpa [Debounced.run, List.getLast_cons] using k2
    · simp only [Debounced.run]
      rw [k3]
      simp [Debounced.invoke, Debounced.arrive, hp, fireBefore, hnot]
    · simpa [Debounced.run, List.getLast_cons] using k4

/-! ## Theorems -/

/-- C1, as the code has it. For a wait `w` of at most 2147483647 ms, a delay `setTimeout`
keeps as it is: a burst of invocations of a debounced function, each made less than `w`
after the previous one, runs `fn` exactly once: nothing has run before `w` has passed
since the last invocation, and from then on there is exactly one execution, at that
time, with the arguments of the last invocation. -/
theorem debounce_burst_runs_last_once {α : Type} (w : Nat) (hw : w ≤ 2147483647)
    (first : Nat × α) (rest : List (Nat × α))
    (hburst : List.Chain (fun a b => a.1 ≤ b.1 ∧ b.1 < a.1 + w) first rest) (T : Nat) :
    ((Debounced.run w (debounce α) (first :: rest)).advance T).calls =
      if ((first :: rest).getLast (by simp)).1 + w ≤ T then
        [(((first :: rest).getLast (by simp)).1 + w, ((first :: rest).getLast (by simp)).2)]
      else [] := by
  have hw2 : w < 2147483648 := by omega
  obtain ⟨τ, a⟩ := first
  obtain ⟨j, _, k2, k3, _⟩ := Debounced.run_armed w hw2 rest
    (((debounce α).arrive τ).invoke w a) 0 (τ, a)
    (by simp [Debounced.invoke, Debounced.arrive, debounce])
    (by simp [Debounced.invoke, Debounced.arrive, debounce, fireBefore, clearTimeout,
          insertTimer, timerDelay_of_lt w hw2])
    (by simp [Debounced.invoke, Debounced.arrive, debounce])
    hburst
  have hrun : Debounced.run w (debounce α) ((τ, a) :: rest) =
      Debounced.run w (((debounce α).arrive τ).invoke w a) rest := rfl
  rw [hrun]
  generalize Debounced.run w (((debounce α).arrive τ).invoke w a) rest = S at k2 k3 ⊢
  have hc : S.calls = [] := by
    rw [k3]
    simp [Debounced.invoke, Debounced.arrive, debounce, fireBefore]
  simp only [Debounced.advance, k2, hc, fireDue]
  split_ifs with h
  · simp [List.filter, h]
  · simp [List.filter, h]

/-- Witness for C1: three invocations at times 0, 40 and 90 with wait 100, observed at
time 500. -/
theorem debounce_burst_runs_last_once_witness :
    ((Debounced.run 100 (debounce String) [(0, "a"), (40, "b"), (90, "c")]).advance 500).calls =
      if (([(0, "a"), (40, "b"), (90, "c")] : List (Nat × String)).getLast (by simp)).1 + 100 ≤ 500
      then
        [((([(0, "a"), (40, "b"), (90, "c")] : List (Nat × String)).getLast (by simp)).1 + 100,
          (([(0, "a"), (40, "b"), (90, "c")] : List (Nat × String)).getLast (by simp)).2)]
      else [] :=
  debounce_burst_runs_last_once 100 (by decide) (0, "a") [(40, "b"), (90, "c")]
    (by simp) 500

/-- C1 as stated fails for a wait of 2147483648 ms, which `setTimeout` keeps as 0: two
invocations at 0 ms and 40 ms are within one wait of each other, yet by 140 ms `fn` has
run twice, at the time of each invocation and with the arguments of each. -/
theorem debounce_wait_overflow_runs_each :
    List.Chain (fun a b : Nat × String => a.1 ≤ b.1 ∧ b.1 < a.1 + 2147483648) (0, "a")
      [(40, "b")] ∧
    ((Debounced.run 2147483648 (debounce String) [(0, "a"), (40, "b")]).advance 140).calls =
      [(0, "a"), (40, "b")] :=
  ⟨by simp, by decide⟩

/-! ### Delete confirmation -/

theorem showDeleteModal_slot {F : Type} (pg : DeletePage) (acc : Bool) (t n : JSString)
    (form : F) (s : DeleteState F) :
    (showDeleteModal pg acc t n form s).deleteFormToSubmit = some form := by
  unfold showDeleteModal
  cases pg.hasDeleteMessage <;> cases pg.hasConfirmDeleteModal <;> cases acc <;> rfl

theorem showDeleteModal_listening {F : Type} (pg : DeletePage) (acc : Bool) (t n : JSString)
    (form : F) (s : DeleteState F) :
    (showDeleteModal pg acc t n form s).listening = s.listening := by
  unfold showDeleteModal
  cases pg.hasDeleteMessage <;> cases pg.hasConfirmDeleteModal <;> cases acc <;> rfl

theorem showDeleteModal_submitted_modal {F : Type} (pg : DeletePage) (acc : Bool)
    (t n : JSString) (form : F) (s : DeleteState F) (hm : pg.hasConfirmDeleteModal = true) :
    (showDeleteModal pg acc t n form s).submitted = s.submitted := by
  unfold showDeleteModal
  rw [hm]
  cases pg.hasDeleteMessage <;> rfl

theorem activateConfirm_slot {F : Type} (s : DeleteState F) :
    (activateConfirm s).deleteFormToSubmit = s.deleteFormToSubmit := by
  unfold activateConfirm confirmDeleteBtnClick
  split
  · split <;> rfl
  · rfl

theorem activateConfirm_listening {F : Type} (s : DeleteState F) :
    (activateConfirm s).listening = s.listening := by
  unfold activateConfirm confirmDeleteBtnClick
  split
  · split <;> rfl
  · rfl

theorem activateConfirm_submitted {F : Type} (s : DeleteState F) (f : F)
    (hl : s.listening = true) (hf : s.deleteFormToSubmit = some f) :
    (activateConfirm s).submitted = s.submitted ++ [f] := by
  unfold activateConfirm confirmDeleteBtnClick
  simp [hl, hf]

theorem activateConfirm_iterate {F : Type} (f : F) (k : Nat) :
    ∀ s : DeleteState F, s.listening = true → s.deleteFormToSubmit = some f →
      (activateConfirm^[k] s).submitted = s.submitted ++ List.replicate k f ∧
      (activateConfirm^[k] s).deleteFormToSubmit = some f := by
  induction k with
  | zero => intro s _ hf; simpa using hf
  | succ k ih =>
    intro s hl hf
    have h := ih (activateConfirm s) (by rw [activateConfirm_listening, hl])
      (by rw [activateConfirm_slot, hf])
    rw [Function.iterate_succ_apply, h.1, h.2, activateConfirm_submitted s f hl hf]
    simp [List.replicate_succ]

/-- C2. On a page with the confirmation modal and a listening confirm button: after
`showDeleteModal` for `formA` and then for `formB`, activating the button adds exactly
`formB` to the submitted forms, so `formA`, when it is a different form, is not among the
forms submitted since; after a single `showDeleteModal` for `formX` it adds exactly
`formX`. -/
theorem showDeleteModal_last_request_wins {F : Type} (pg : DeletePage)
    (s : DeleteState F) (a1 a2 : Bool) (t1 n1 t2 n2 : JSString) (formA formB formX : F)
    (hmodal : pg.hasConfirmDeleteModal = true) (hbtn : s.listening = true) :
    (activateConfirm (showDeleteModal pg a2 t2 n2 formB
        (showDeleteModal pg a1 t1 n1 formA s))).submitted = s.submitted ++ [formB] ∧
    (formA ≠ formB → formA ∉ ((activateConfirm (showDeleteModal pg a2 t2 n2 formB
        (showDeleteModal pg a1 t1 n1 formA s))).submitted.drop s.submitted.length)) ∧
    (activateConfirm (showDeleteModal pg a1 t1 n1 formX s)).submitted =
      s.submitted ++ [formX] := by
  have h1 : (activateConfirm (showDeleteModal pg a2 t2 n2 formB
        (showDeleteModal pg a1 t1 n1 formA s))).submitted = s.submitted ++ [formB] := by
    rw [activateConfirm_submitted _ formB
      (by rw [showDeleteModal_listening, showDeleteModal_listening, hbtn])
      (showDeleteModal_slot _ _ _ _ _ _),
      showDeleteModal_submitted_modal _ _ _ _ _ _ hmodal,
      showDeleteModal_submitted_modal _ _ _ _ _ _ hmodal]
  refine ⟨h1, ?_, ?_⟩
  · intro hne
    rw [h1]
    simpa using hne
  · rw [activateConfirm_submitted _ formX (by rw [showDeleteModal_listening, hbtn])
      (showDeleteModal_slot _ _ _ _ _ _),
      showDeleteModal_submitted_modal _ _ _ _ _ _ hmodal]

/-- Witness for C2: a page with message, modal and button, after `DOMContentLoaded`,
with forms 1 and 2. -/
theorem showDeleteModal_last_request_wins_witness :
    (activateConfirm (showDeleteModal ⟨true, true, true⟩ false (utf16 "doctor") (utf16 "B") 2
        (showDeleteModal ⟨true, true, true⟩ false (utf16 "patient") (utf16 "A") 1
          (domContentLoaded ⟨true, true, true⟩ (DeleteState.init Nat))))).submitted =
      (domContentLoaded ⟨true, true, true⟩ (DeleteState.init Nat)).submitted ++ [2] ∧
    ((1 : Nat) ≠ 2 → 1 ∉ ((activateConfirm (showDeleteModal ⟨true, true, true⟩ false
        (utf16 "doctor") (utf16 "B") 2
        (showDeleteModal ⟨true, true, true⟩ false (utf16 "patient") (utf16 "A") 1
          (domContentLoaded ⟨true, true, true⟩ (DeleteState.init Nat))))).submitted.drop
        (domContentLoaded ⟨true, true, true⟩ (DeleteState.init Nat)).submitted.length)) ∧
    (activateConfirm (showDeleteModal ⟨true, true, true⟩ false (utf16 "patient") (utf16 "A") 3
        (domContentLoaded ⟨true, true, true⟩ (DeleteState.init Nat)))).submitted =
      (domContentLoaded ⟨true, true, true⟩ (DeleteState.init Nat)).submitted ++ [3] :=
  showDeleteModal_last_request_wins ⟨true, true, true⟩
    (domContentLoaded ⟨true, true, true⟩ (DeleteState.init Nat)) false false
    (utf16 "patient") (utf16 "A") (utf16 "doctor") (utf16 "B") 1 2 3 rfl rfl

/-- C10. The click listener of the confirm button leaves the pending-deletion slot as
it was; with the listener attached, `k` activations after one `showDeleteModal` for
`form` submit that form `k` times; and while the slot is empty an activation submits
nothing. -/
theorem confirm_click_keeps_slot {F : Type} (pg : DeletePage) (s : DeleteState F)
    (acc : Bool) (t n : JSString) (form : F) (k : Nat) :
    (confirmDeleteBtnClick s).deleteFormToSubmit = s.deleteFormToSubmit ∧
    (activateConfirm s).deleteFormToSubmit = s.deleteFormToSubmit ∧
    (s.listening = true →
      (activateConfirm^[k] (showDeleteModal pg acc t n form s)).submitted =
        (showDeleteModal pg acc t n form s).submitted ++ List.replicate k form) ∧
    (s.deleteFormToSubmit = none → (activateConfirm s).submitted = s.submitted) := by
  refine ⟨?_, activateConfirm_slot s, ?_, ?_⟩
  · unfold confirmDeleteBtnClick
    cases h : s.deleteFormToSubmit <;> simp [h]
  · intro hl
    exact (activateConfirm_iterate form k _ (by rw [showDeleteModal_listening, hl])
      (showDeleteModal_slot _ _ _ _ _ _)).1
  · intro hn
    unfold activateConfirm confirmDeleteBtnClick
    cases s.listening <;> simp [hn]

/-- Witness for C10: three activations after one request on a page with the modal, and
an activation on the freshly loaded page. -/
theorem confirm_click_keeps_slot_witness :
    (domContentLoaded ⟨true, true, true⟩ (DeleteState.init Nat)).listening = true ∧
    (activateConfirm^[3] (showDeleteModal ⟨true, true, true⟩ false (utf16 "patient")
        (utf16 "Jane Doe") 7
        (domContentLoaded ⟨true, true, true⟩ (DeleteState.init Nat)))).submitted = [7, 7, 7] ∧
    (activateConfirm (domContentLoaded ⟨true, true, true⟩ (DeleteState.init Nat))).submitted
      = [] :=
  ⟨rfl,
   (confirm_click_keeps_slot ⟨true, true, true⟩
      (domContentLoaded ⟨true, true, true⟩ (DeleteState.init Nat)) false (utf16 "patient")
      (utf16 "Jane Doe") 7 3).2.2.1 rfl,
   (confirm_click_keeps_slot ⟨true, true, true⟩
      (domContentLoaded ⟨true, true, true⟩ (DeleteState.init Nat)) false (utf16 "patient")
      (utf16 "Jane Doe") 7 3).2.2.2 rfl⟩

/-- C9, as the code has it. For a message that is text (it holds no `<`), a severity of
the specification and a timeout of at most 2147483647 ms, on a page with at most one
toast container: one call of `showToast` adds exactly one element to the toasts of the
page, of class `text-bg-` followed by the severity, whose content is the message
followed by the close button, which is part of it; its removal is due at the time of the
call plus the timeout; the page then has exactly one toast container, and keeps exactly
one whatever happens later; once a wait has reached the time of the call plus the timeout
the element is absent, whatever else happens before and after; a wait leaves in place
every toast that has no removal timer due by then; and the new toast is still on the
page after any events that are further toasts, closings of other toasts and waits that
end before its timeout has elapsed. -/
theorem showToast_adds_one_self_removing (message : JSString) (sev : Severity)
    (timeout : Nat) (d : ToastDoc) (hone : d.containers.length ≤ 1)
    (hmsg : ∀ c ∈ message, c ≠ 0x3C) (htimeout : timeout ≤ 2147483647) :
    [Severity.info.name, Severity.success.name, Severity.warning.name, Severity.danger.name] =
      [utf16 "info", utf16 "success", utf16 "warning", utf16 "danger"] ∧
    (showToast message sev.name timeout d).toasts =
      d.toasts ++ [⟨d.nextEl,
        utf16 "toast align-items-center text-bg-" ++ sev.name ++ utf16 " border-0 show",
        utf16 "<div class=\"d-flex\"><div class=\"toast-body\">" ++ message ++
          utf16 ("</div>\n    <button type=\"button\" " ++
            "class=\"btn-close btn-close-white me-2 m-auto\" " ++
            "onclick=\"this.closest(\x27.toast\x27).remove()\"></button></div>"),
        some true⟩] ∧
    (showToast message sev.name timeout d).pending =
      insertTimer ⟨d.nextTimer, d.now + timeout, d.nextEl⟩ d.pending ∧
    (∀ evs, ((showToast message sev.name timeout d).run evs).containers.length = 1) ∧
    (∀ evs T evs', d.now + timeout ≤ T →
      ∀ x ∈ ((showToast message sev.name timeout d).run
          (evs ++ ToastEvent.wait T :: evs')).toasts, x.el ≠ d.nextEl) ∧
    (∀ T, ∀ x ∈ (showToast message sev.name timeout d).toasts,
      (∀ tm ∈ (showToast message sev.name timeout d).pending, tm.cb = x.el → T < tm.due) →
      x ∈ ((showToast message sev.name timeout d).advance T).toasts) ∧
    ((∀ tm ∈ d.pending, tm.cb < d.nextEl) →
      ∀ evs, (∀ ev ∈ evs, ToastEvent.spares d.nextEl (d.now + timeout) ev) →
      ∃ x ∈ ((showToast message sev.name timeout d).run evs).toasts, x.el = d.nextEl) := by
  have hdelay : timerDelay timeout = timeout := timerDelay_eq timeout htimeout
  have hclose : closeControlAfter message = some true := closeControlAfter_text message hmsg
  have htoasts : (showToast message sev.name timeout d).toasts =
      d.toasts ++ [⟨d.nextEl,
        utf16 "toast align-items-center text-bg-" ++ sev.name ++ utf16 " border-0 show",
        utf16 "<div class=\"d-flex\"><div class=\"toast-body\">" ++ message ++
          utf16 ("</div>\n    <button type=\"button\" " ++
            "class=\"btn-close btn-close-white me-2 m-auto\" " ++
            "onclick=\"this.closest(\x27.toast\x27).remove()\"></button></div>"),
        some true⟩] := by
    simp only [ToastDoc.toasts, showToast, hclose]
    match hc : d.containers with
    | [] => exact rfl
    | [c] => simp only [List.flatten_cons, List.flatten_nil, List.append_nil]; exact rfl
    | c :: c2 :: cs => simp [hc] at hone
  refine ⟨rfl, htoasts, ?_, ?_, ?_, ?_, ?_⟩
  · simp only [showToast, hdelay]
  · intro evs
    apply ToastDoc.run_length
    simp only [showToast]
    match hc : d.containers with
    | [] => simp
    | [c] => simp
    | c :: c2 :: cs => simp [hc] at hone
  · intro evs T evs' hT
    have h1 := ToastDoc.scheduled_run d.nextEl (d.now + timerDelay timeout) evs _
      (showToast_scheduled message sev.name timeout d)
    have h2 := ToastDoc.scheduled_wait _ _ T _ h1 (by rw [hdelay]; exact hT)
    have h3 := ToastDoc.gone_run d.nextEl evs' _ h2
    rw [ToastDoc.run_append]
    exact h3.2
  · intro T x hx hno
    rw [ToastDoc.mem_advance]
    refine ⟨hx, ?_⟩
    intro tm htm hdue heq
    have := hno tm htm heq.symm
    omega
  · intro hfresh evs hall
    have hkept : (showToast message sev.name timeout d).Kept
        ⟨d.nextEl,
          utf16 "toast align-items-center text-bg-" ++ sev.name ++ utf16 " border-0 show",
          utf16 "<div class=\"d-flex\"><div class=\"toast-body\">" ++ message ++
            utf16 ("</div>\n    <button type=\"button\" " ++
              "class=\"btn-close btn-close-white me-2 m-auto\" " ++
              "onclick=\"this.closest(\x27.toast\x27).remove()\"></button></div>"),
          some true⟩ (d.now + timeout) := by
      refine ⟨?_, ?_, ?_⟩
      · rw [htoasts]
        simp
      · show d.nextEl < d.nextEl + 1
        omega
      · intro tm htm hcb
        simp only [showToast, hdelay] at htm
        rcases (mem_insertTimer _ _ _).mp htm with h1 | h1
        · rw [h1]
        · have := hfresh tm h1
          simp only at hcb
          omega
    exact ⟨_, (ToastDoc.kept_run _ _ evs _ hkept hall).1, rfl⟩

/-! ### Requests -/

theorem length_toasts_showToast (m t : JSString) (ms : Nat) (d : ToastDoc) :
    (showToast m t ms d).toasts.length = d.toasts.length + 1 := by
  simp only [ToastDoc.toasts, showToast]
  match d.containers with
  | [] => simp
  | c :: cs => simp; omega

theorem mem_toasts_showToast (m t : JSString) (ms : Nat) (d : ToastDoc) :
    (⟨d.nextEl, toastClass t, toastHTML m, closeControlAfter m⟩ : ToastEl) ∈
      (showToast m t ms d).toasts ∧
    ∀ x ∈ d.toasts, x ∈ (showToast m t ms d).toasts := by
  simp only [ToastDoc.toasts, showToast]
  match d.containers with
  | [] => simp
  | c :: cs =>
    simp only [List.flatten_cons, List.mem_append, List.mem_singleton, or_true, true_or,
      true_and]
    exact fun x hx => hx.elim (fun h => Or.inl (Or.inl h)) Or.inr

theorem isOk_eq (s : Nat) : isOk s = decide (200 ≤ s ∧ s ≤ 299) := by
  unfold isOk
  by_cases h1 : 200 ≤ s <;> by_cases h2 : s ≤ 299 <;> simp [h1, h2]

theorem dropWhile_eq_nil {α : Type} (p : α → Bool) (l : List α) :
    l.dropWhile p = [] ↔ ∀ x ∈ l, p x = true := by
  induction l with
  | nil => simp
  | cons a l ih =>
    by_cases ha : p a = true
    · simp [List.dropWhile_cons, ha, ih]
    · simp [List.dropWhile_cons, ha]

theorem trim_eq_nil (v : JSString) : trim v = [] ↔ ∀ c ∈ v, isTrimmable c = true := by
  unfold trim
  rw [List.reverse_eq_nil_iff, dropWhile_eq_nil]
  constructor
  · intro h
    by_contra hne
    have hnn : v.dropWhile isTrimmable ≠ [] := fun h0 => hne ((dropWhile_eq_nil _ _).mp h0)
    have hhead := List.head_dropWhile_not isTrimmable v hnn
    have hmem := h _ (List.mem_reverse.mpr (List.head_mem hnn))
    rw [hmem] at hhead
    exact absurd hhead (by decide)
  · intro h
    rw [(dropWhile_eq_nil _ _).mpr h]
    simp

/-- C3. When one of the three arguments of `checkAvailability` is falsy, as `undefined`,
`null`, the empty string and `0` are, the call resolves to the object with `ok` false and `conflict` false and
issues no request. -/
theorem checkAvailability_missing_argument (parse : JSString → Option Json)
    (transport : Request Empty → FetchResult) (doctorId dateStr timeStr : Arg)
    (h : doctorId.truthy = false ∨ dateStr.truthy = false ∨ timeStr.truthy = false) :
    (checkAvailability parse transport doctorId dateStr timeStr).outcome =
      .ok ⟨false, some (some (Json.bool false))⟩ ∧
    (checkAvailability parse transport doctorId dateStr timeStr).requests = [] ∧
    Arg.undefined.truthy = false ∧ Arg.null.truthy = false ∧ (Arg.str []).truthy = false ∧
    (Arg.int 0).truthy = false := by
  have hc : (!doctorId.truthy || !dateStr.truthy || !timeStr.truthy) = true := by
    rcases h with h | h | h <;> simp [h]
  unfold checkAvailability
  rw [if_pos hc]
  exact ⟨rfl, rfl, rfl, rfl, rfl, rfl⟩

/-- Witness for C3: the date is the empty string. -/
theorem checkAvailability_missing_argument_witness :
    (checkAvailability jsonParse (fun _ => FetchResult.response 200 (some (utf16 "null")))
      (Arg.int 7) (Arg.str []) (Arg.str (utf16 "10:00"))).requests = [] :=
  (checkAvailability_missing_argument jsonParse _ (Arg.int 7) (Arg.str [])
    (Arg.str (utf16 "10:00")) (Or.inr (Or.inl rfl))).2.1

/-- C4 at the failing input: with a date that holds an unpaired surrogate the url cannot
be built, `encodeURIComponent` throws before the `try` block is entered, and the promise
of `checkAvailability` rejects, whatever the transport would have done. -/
theorem checkAvailability_unpaired_surrogate_faults (parse : JSString → Option Json)
    (transport : Request Empty → FetchResult) :
    (checkAvailability parse transport (Arg.int 1) (Arg.str [0xD800])
      (Arg.str (utf16 "10:00"))).outcome = .error Fault.uri ∧
    (checkAvailability parse transport (Arg.int 1) (Arg.str [0xD800])
      (Arg.str (utf16 "10:00"))).requests = [] :=
  ⟨rfl, rfl⟩

/-- Once its url is built, `checkAvailability` resolves whatever the transport does, and
to the object that only has `ok` false when the request fails, the status is a failure
status, the body cannot be read or the body is not JSON. -/
theorem checkAvailability_contained (parse : JSString → Option Json)
    (transport : Request Empty → FetchResult) (doctorId dateStr timeStr : Arg)
    (url : JSString)
    (htruthy : doctorId.truthy = true ∧ dateStr.truthy = true ∧ timeStr.truthy = true)
    (hurl : checkSlotUrl doctorId dateStr timeStr = .ok url) :
    (transport ⟨utf16 "GET", url, [], none, utf16 "same-origin"⟩ = .rejected →
      (checkAvailability parse transport doctorId dateStr timeStr).outcome =
        .ok ⟨false, none⟩) ∧
    (∀ s b, transport ⟨utf16 "GET", url, [], none, utf16 "same-origin"⟩ = .response s b →
      isOk s = false →
      (checkAvailability parse transport doctorId dateStr timeStr).outcome =
        .ok ⟨false, none⟩) ∧
    (∀ s, transport ⟨utf16 "GET", url, [], none, utf16 "same-origin"⟩ = .response s none →
      (checkAvailability parse transport doctorId dateStr timeStr).outcome =
        .ok ⟨false, none⟩) ∧
    (∀ s b, transport ⟨utf16 "GET", url, [], none, utf16 "same-origin"⟩ =
        .response s (some b) → parse b = none →
      (checkAvailability parse transport doctorId dateStr timeStr).outcome =
        .ok ⟨false, none⟩) ∧
    (∃ r, (checkAvailability parse transport doctorId dateStr timeStr).outcome = .ok r) ∧
    (checkAvailability parse transport doctorId dateStr timeStr).requests =
      [⟨utf16 "GET", url, [], none, utf16 "same-origin"⟩] := by
  obtain ⟨h1, h2, h3⟩ := htruthy
  have hc : (!doctorId.truthy || !dateStr.truthy || !timeStr.truthy) = false := by
    simp [h1, h2, h3]
  unfold checkAvailability
  simp only [hc, hurl, Bool.false_eq_true, if_false]
  cases ht : transport ⟨utf16 "GET", url, [], none, utf16 "same-origin"⟩ with
  | rejected => simp
  | response s b =>
    cases hs : isOk s
    · simp [hs]
    · cases b with
      | none => simp [hs]
      | some text =>
        cases hp : parse text with
        | none => simp [hs, hp]
        | some data =>
          cases hk : conflictOf data <;> simp [hs, hp, hk]

/-- C5. For a response with status `s` and body text `b`, `ajaxPostJson` resolves to an
object with `status` `s`, `ok` true exactly for a status in 200-299, and `data` the value
parsed from `b`, or the text `b` itself when `b` is not JSON; so the body `not json` with
status 200 gives `ok` true, `status` 200 and `data` the string `not json`. -/
theorem ajaxPostJson_reply {P : Type} (parse : JSString → Option Json)
    (stringify : P → Except Fault (Option JSString)) (pg : CsrfPage)
    (transport : Request JSString → FetchResult) (url : JSString) (jsonObj : P)
    (method : JSString) (body : Option JSString) (s : Nat) (b : JSString)
    (hbody : stringify jsonObj = .ok body)
    (hresp : transport ⟨method, url,
      (utf16 "Content-Type", utf16 "application/json") :: csrfHeader (getCSRFToken pg), body,
      utf16 "same-origin"⟩ = .response s (some b)) :
    (ajaxPostJson parse stringify pg transport url jsonObj method).outcome =
      .ok ⟨decide (200 ≤ s ∧ s ≤ 299), s, (parse b).getD (Json.str b)⟩ ∧
    (parse (utf16 "not json") = none → s = 200 → b = utf16 "not json" →
      (ajaxPostJson parse stringify pg transport url jsonObj method).outcome =
        .ok ⟨true, 200, Json.str (utf16 "not json")⟩) := by
  have h1 : (ajaxPostJson parse stringify pg transport url jsonObj method).outcome =
      .ok ⟨decide (200 ≤ s ∧ s ≤ 299), s, (parse b).getD (Json.str b)⟩ := by
    unfold ajaxPostJson
    simp only [hbody, hresp]
    rw [isOk_eq]
    cases hp : parse b <;> rfl
  refine ⟨h1, ?_⟩
  intro hp hs hb
  rw [h1, hs, hb, hp]
  rfl

/-- Witness for C5: the transport answers 200 with the body `not json`, parsed by
`jsonParse`. -/
theorem ajaxPostJson_reply_witness :
    (ajaxPostJson jsonParse (fun _ : Unit => Except.ok (some (utf16 "null"))) ⟨none, none⟩
      (fun _ => FetchResult.response 200 (some (utf16 "not json"))) (utf16 "/api/x") ()
      (utf16 "POST")).outcome = .ok ⟨true, 200, Json.str (utf16 "not json")⟩ :=
  (ajaxPostJson_reply jsonParse (fun _ : Unit => Except.ok (some (utf16 "null"))) ⟨none, none⟩
    (fun _ => FetchResult.response 200 (some (utf16 "not json"))) (utf16 "/api/x") ()
    (utf16 "POST") (some (utf16 "null")) 200 (utf16 "not json") rfl rfl).2 rfl rfl rfl

set_option maxRecDepth 20000 in
theorem noTokenToast_markup :
    toastClass Severity.danger.name =
      utf16 "toast align-items-center text-bg-danger border-0 show" ∧
    toastHTML (utf16 "No CSRF token") =
      utf16 ("<div class=\"d-flex\"><div class=\"toast-body\">No CSRF token</div>\n    " ++
        "<button type=\"button\" class=\"btn-close btn-close-white me-2 m-auto\" " ++
        "onclick=\"this.closest(\x27.toast\x27).remove()\"></button></div>") ∧
    closeControlAfter (utf16 "No CSRF token") = some true :=
  ⟨by decide, by decide, by decide⟩

/-- C6. Without an anti-forgery token (`getCSRFToken` gives `null` or the empty string)
`ajaxDeleteRow` issues no request, leaves the row as it is, and calls `showToast` once,
with severity danger: the page has one toast more, an element of class `text-bg-danger`
with the text `No CSRF token` and the close button, and every toast it had. -/
theorem ajaxDeleteRow_without_token (pg : CsrfPage) (transport : Request Empty → FetchResult)
    (url : JSString) (rowEl : Option Bool) (successMsg : JSString) (d : ToastDoc)
    (h : getCSRFToken pg = none ∨ getCSRFToken pg = some []) :
    (ajaxDeleteRow pg transport url rowEl successMsg d).requests = [] ∧
    (ajaxDeleteRow pg transport url rowEl successMsg d).row = rowEl ∧
    (ajaxDeleteRow pg transport url rowEl successMsg d).doc =
      showToast (utf16 "No CSRF token") Severity.danger.name defaultToastTimeout d ∧
    (ajaxDeleteRow pg transport url rowEl successMsg d).doc.toasts.length =
      d.toasts.length + 1 ∧
    (⟨d.nextEl, toastClass Severity.danger.name, toastHTML (utf16 "No CSRF token"),
        some true⟩ : ToastEl) ∈
      (ajaxDeleteRow pg transport url rowEl successMsg d).doc.toasts ∧
    (⟨d.nextEl, utf16 "toast align-items-center text-bg-danger border-0 show",
        utf16 ("<div class=\"d-flex\"><div class=\"toast-body\">No CSRF token</div>\n    " ++
          "<button type=\"button\" class=\"btn-close btn-close-white me-2 m-auto\" " ++
          "onclick=\"this.closest(\x27.toast\x27).remove()\"></button></div>"),
        some true⟩ : ToastEl) ∈
      (ajaxDeleteRow pg transport url rowEl successMsg d).doc.toasts ∧
    (∀ x ∈ d.toasts, x ∈ (ajaxDeleteRow pg transport url rowEl successMsg d).doc.toasts) ∧
    (ajaxDeleteRow pg transport url rowEl successMsg d).outcome = .ok () := by
  have hrun : ajaxDeleteRow pg transport url rowEl successMsg d =
      ⟨[], showToast (utf16 "No CSRF token") Severity.danger.name defaultToastTimeout d, rowEl,
        .ok ()⟩ := by
    unfold ajaxDeleteRow
    rcases h with h | h <;> rw [h] <;> rfl
  rw [hrun]
  have hmem := (mem_toasts_showToast (utf16 "No CSRF token") Severity.danger.name
    defaultToastTimeout d).1
  have hlit := hmem
  rw [noTokenToast_markup.2.2] at hmem
  rw [noTokenToast_markup.1, noTokenToast_markup.2.1, noTokenToast_markup.2.2] at hlit
  exact ⟨rfl, rfl, rfl, length_toasts_showToast _ _ _ _, hmem, hlit,
    (mem_toasts_showToast _ _ _ _).2, rfl⟩

/-- Witness for C6: a page whose meta tag has an empty content, an attached row and no
toasts yet. -/
theorem ajaxDeleteRow_without_token_witness :
    (ajaxDeleteRow ⟨some [], some (utf16 "tok")⟩ (fun _ => FetchResult.response 200 (some []))
      (utf16 "/patients/3/delete") (some true) (utf16 "Deleted") ⟨0, 0, 0, [], []⟩).requests = [] ∧
    (ajaxDeleteRow ⟨some [], some (utf16 "tok")⟩ (fun _ => FetchResult.response 200 (some []))
      (utf16 "/patients/3/delete") (some true) (utf16 "Deleted") ⟨0, 0, 0, [], []⟩).row =
      some true :=
  ⟨(ajaxDeleteRow_without_token ⟨some [], some (utf16 "tok")⟩ _ (utf16 "/patients/3/delete")
      (some true) (utf16 "Deleted") ⟨0, 0, 0, [], []⟩ (Or.inr rfl)).1,
   (ajaxDeleteRow_without_token ⟨some [], some (utf16 "tok")⟩ _ (utf16 "/patients/3/delete")
      (some true) (utf16 "Deleted") ⟨0, 0, 0, [], []⟩ (Or.inr rfl)).2.1⟩

theorem ajaxDeleteRow_notifies_once (pg : CsrfPage) (transport : Request Empty → FetchResult)
    (url : JSString) (rowEl : Option Bool) (successMsg : JSString) (d : ToastDoc) :
    (ajaxDeleteRow pg transport url rowEl successMsg d).outcome = .ok () ∧
    ∃ m t, (ajaxDeleteRow pg transport url rowEl successMsg d).doc =
      showToast m t defaultToastTimeout d := by
  unfold ajaxDeleteRow
  simp only
  split
  · exact ⟨rfl, _, _, rfl⟩
  · split
    · exact ⟨rfl, _, _, rfl⟩
    · split
      · exact ⟨rfl, _, _, rfl⟩
      · split
        · exact ⟨rfl, _, _, rfl⟩
        · split <;> exact ⟨rfl, _, _, rfl⟩

theorem liveSearch_resolves (fetchUrl : JSString) (transport : Request Empty → FetchResult)
    (value : JSString) : (liveSearch fetchUrl transport value).outcome = .ok () := by
  unfold liveSearch
  simp only
  split
  · rfl
  · split
    · rfl
    · split
      · rfl
      · split
        · split <;> rfl
        · rfl

/-- C7, as the code has it. At a firing of the live-search handler with input value
`v`: if `v` is empty or white space only, the results container is emptied and no request
is issued; otherwise, when the trimmed value can be URL-encoded, exactly one GET is issued
to `fetchUrl + "?q=" +` the encoded trimmed value (`flu` gives `fetchUrl?q=flu`) and the
container gets the response body on a 2xx answer, the `Search failed` message on another
status, and the `Network error` message when the request or the reading of the body
fails; and when the trimmed value cannot be encoded, no request is issued and the
container gets the `Network error` message. -/
theorem liveSearch_firing (fetchUrl : JSString) (transport : Request Empty → FetchResult)
    (v : JSString) :
    ((∀ c ∈ v, isTrimmable c = true) →
      (liveSearch fetchUrl transport v).innerHTML = [] ∧
      (liveSearch fetchUrl transport v).requests = []) ∧
    (∀ e, trim v ≠ [] → encodeURIComponent (trim v) = some e →
      (liveSearch fetchUrl transport v).requests =
        [⟨utf16 "GET", fetchUrl ++ utf16 "?q=" ++ e, [], none, utf16 "same-origin"⟩] ∧
      (liveSearch fetchUrl transport v).innerHTML =
        match transport ⟨utf16 "GET", fetchUrl ++ utf16 "?q=" ++ e, [], none,
            utf16 "same-origin"⟩ with
        | .rejected => networkErrorHTML
        | .response s (some body) => if isOk s then body else searchFailedHTML
        | .response s none => if isOk s then networkErrorHTML else searchFailedHTML) ∧
    (trim v ≠ [] → encodeURIComponent (trim v) = none →
      (liveSearch fetchUrl transport v).requests = [] ∧
      (liveSearch fetchUrl transport v).innerHTML = networkErrorHTML) ∧
    (liveSearch fetchUrl transport (utf16 "flu")).requests =
      [⟨utf16 "GET", fetchUrl ++ utf16 "?q=flu", [], none, utf16 "same-origin"⟩] ∧
    (liveSearch fetchUrl transport v).outcome = .ok () := by
  have hsend : ∀ (w e : JSString), trim w ≠ [] → encodeURIComponent (trim w) = some e →
      (liveSearch fetchUrl transport w).requests =
        [⟨utf16 "GET", fetchUrl ++ utf16 "?q=" ++ e, [], none, utf16 "same-origin"⟩] ∧
      (liveSearch fetchUrl transport w).innerHTML =
        match transport ⟨utf16 "GET", fetchUrl ++ utf16 "?q=" ++ e, [], none,
            utf16 "same-origin"⟩ with
        | .rejected => networkErrorHTML
        | .response s (some body) => if isOk s then body else searchFailedHTML
        | .response s none => if isOk s then networkErrorHTML else searchFailedHTML := by
    intro w e hne henc
    have hq : (trim w == []) = false := by simpa using hne
    unfold liveSearch
    simp only [hq, henc]
    cases transport ⟨utf16 "GET", fetchUrl ++ utf16 "?q=" ++ e, [], none,
        utf16 "same-origin"⟩ with
    | rejected => exact ⟨rfl, rfl⟩
    | response s body =>
      cases body <;> cases hs : isOk s <;> simp [hs]
  refine ⟨?_, hsend v, ?_, ?_, liveSearch_resolves _ _ _⟩
  · intro hws
    have : trim v = [] := (trim_eq_nil v).mpr hws
    unfold liveSearch
    simp [this]
  · intro hne henc
    have hq : (trim v == []) = false := by simpa using hne
    unfold liveSearch
    simp only [hq, henc]
    exact ⟨rfl, rfl⟩
  · have hurl : fetchUrl ++ utf16 "?q=" ++ utf16 "flu" = fetchUrl ++ utf16 "?q=flu" := by
      rw [List.append_assoc]
      rfl
    rw [← hurl]
    exact (hsend (utf16 "flu") (utf16 "flu") (by decide) (by decide)).1

/-- Witness for C7: the value ` flu ` on a transport that answers 200, and a value of
two blanks. -/
theorem liveSearch_firing_witness :
    (liveSearch (utf16 "/search")
      (fun _ => FetchResult.response 200 (some (utf16 "<li>Influenza</li>")))
      (utf16 " flu ")).requests =
      [⟨utf16 "GET", utf16 "/search" ++ utf16 "?q=" ++ utf16 "flu", [], none,
        utf16 "same-origin"⟩] ∧
    ((liveSearch (utf16 "/search")
      (fun _ => FetchResult.response 200 (some (utf16 "<li>Influenza</li>")))
      (utf16 "  ")).innerHTML = [] ∧
     (liveSearch (utf16 "/search")
      (fun _ => FetchResult.response 200 (some (utf16 "<li>Influenza</li>")))
      (utf16 "  ")).requests = []) :=
  ⟨((liveSearch_firing (utf16 "/search")
      (fun _ => FetchResult.response 200 (some (utf16 "<li>Influenza</li>")))
      (utf16 " flu ")).2.1 (utf16 "flu") (by decide) (by decide)).1,
   (liveSearch_firing (utf16 "/search")
      (fun _ => FetchResult.response 200 (some (utf16 "<li>Influenza</li>")))
      (utf16 "  ")).1 (by decide)⟩

/-- C7 as stated fails: an input value that is one unpaired surrogate is not empty after
trimming, yet no GET is issued, and the container gets the `Network error` message
although the transport would have answered 200. -/
theorem liveSearch_unpaired_surrogate_sends_nothing :
    trim [0xD800] ≠ [] ∧
    (liveSearch (utf16 "/search")
      (fun _ => FetchResult.response 200 (some (utf16 "<li>Influenza</li>")))
      [0xD800]).requests = [] ∧
    (liveSearch (utf16 "/search")
      (fun _ => FetchResult.response 200 (some (utf16 "<li>Influenza</li>")))
      [0xD800]).innerHTML = networkErrorHTML :=
  ⟨by decide, rfl, rfl⟩

/-- C8 as stated fails: when the transport fails, the promise of `ajaxPostJson` rejects
with the failure of `fetch`. -/
theorem ajaxPostJson_network_failure_rejects :
    (ajaxPostJson jsonParse (fun _ : Unit => Except.ok (some (utf16 "null"))) ⟨none, none⟩
      (fun _ => FetchResult.rejected) (utf16 "/api/x") () (utf16 "POST")).outcome =
      .error Fault.network :=
  rfl

theorem ajaxDeleteRow_contained (pg : CsrfPage) (transport : Request Empty → FetchResult)
    (url : JSString) (rowEl : Option Bool) (successMsg : JSString) (d : ToastDoc)
    (csrf : JSString) (hcsrf : getCSRFToken pg = some csrf) (hne : csrf ≠ []) :
    (transport ⟨utf16 "POST", url, [(utf16 "X-CSRF-Token", csrf)], none, utf16 "same-origin"⟩ =
        .rejected →
      (ajaxDeleteRow pg transport url rowEl successMsg d).doc =
        showToast (utf16 "Network error during delete") (utf16 "danger") 3500 d) ∧
    (∀ s t, transport ⟨utf16 "POST", url, [(utf16 "X-CSRF-Token", csrf)], none,
        utf16 "same-origin"⟩ = .response s (some t) → isOk s = false →
      (ajaxDeleteRow pg transport url rowEl successMsg d).doc =
        showToast (utf16 "Delete failed: " ++ (if t = [] then natToJS s else t))
          (utf16 "danger") 3500 d) ∧
    (∀ s, transport ⟨utf16 "POST", url, [(utf16 "X-CSRF-Token", csrf)], none,
        utf16 "same-origin"⟩ = .response s none → isOk s = false →
      (ajaxDeleteRow pg transport url rowEl successMsg d).doc =
        showToast (utf16 "Network error during delete") (utf16 "danger") 3500 d) := by
  have hq : (csrf == []) = false := by simpa using hne
  refine ⟨?_, ?_, ?_⟩
  · intro ht
    unfold ajaxDeleteRow
    simp only [hcsrf, hq, ht]
    rfl
  · intro s t ht hs
    unfold ajaxDeleteRow
    simp only [hcsrf, hq, ht, hs]
    by_cases h0 : t = []
    · simp [h0, defaultToastTimeout]
    · simp [h0, defaultToastTimeout]
  · intro s ht hs
    unfold ajaxDeleteRow
    simp only [hcsrf, hq, ht, hs]
    rfl

theorem liveSearch_contained (fetchUrl : JSString) (transport : Request Empty → FetchResult)
    (v e : JSString) (hne : trim v ≠ []) (henc : encodeURIComponent (trim v) = some e) :
    (transport ⟨utf16 "GET", fetchUrl ++ utf16 "?q=" ++ e, [], none, utf16 "same-origin"⟩ =
        .rejected →
      (liveSearch fetchUrl transport v).innerHTML =
        utf16 "<div class=\"text-muted\">Network error</div>") ∧
    (∀ s b, transport ⟨utf16 "GET", fetchUrl ++ utf16 "?q=" ++ e, [], none,
        utf16 "same-origin"⟩ = .response s b → isOk s = false →
      (liveSearch fetchUrl transport v).innerHTML =
        utf16 "<div class=\"text-muted\">Search failed</div>") ∧
    (∀ s, transport ⟨utf16 "GET", fetchUrl ++ utf16 "?q=" ++ e, [], none,
        utf16 "same-origin"⟩ = .response s none → isOk s = true →
      (liveSearch fetchUrl transport v).innerHTML =
        utf16 "<div class=\"text-muted\">Network error</div>") := by
  have hq : (trim v == []) = false := by simpa using hne
  refine ⟨?_, ?_, ?_⟩
  · intro ht
    unfold liveSearch
    simp only [hq, henc, ht]
    rfl
  · intro s b ht hs
    unfold liveSearch
    simp only [hq, henc, ht, hs]
    rfl
  · intro s ht hs
    unfold liveSearch
    simp only [hq, henc, ht, hs]
    rfl

/-- C8, as the code has it. For a missing prerequisite, a failure status, a failing
transport or body read and a body that is not JSON: `ajaxDeleteRow` always resolves,
after exactly one notification, which is of severity danger and tells of the missing
token, of the network error or of the failed deletion; the live-search handler always
resolves, and shows the `Network error` or the `Search failed` message in the results
container (an emptied container for an empty input); `checkAvailability` resolves to the
object with `ok` false and `conflict` false when an argument is missing and, once its
url is built, to the object that only has `ok` false for each of the failures;
`ajaxPostJson` (once the payload is serialised) and `ajaxPostForm` resolve for every
response whose body can be read, with the status and the success flag of the response,
whatever the status and the body are, a body that is not JSON being returned as text,
whereas a failing transport or body read is not caught by them and rejects their
promise. -/
theorem failures_contained_where_caught {P Φ : Type} (parse : JSString → Option Json)
    (stringify : P → Except Fault (Option JSString)) (pg : CsrfPage)
    (transport : Request Empty → FetchResult) (transportJ : Request JSString → FetchResult)
    (transportF : Request Φ → FetchResult) (url method successMsg fetchUrl v : JSString)
    (jsonObj : P) (formDataObj : Φ) (rowEl : Option Bool) (d : ToastDoc)
    (doctorId dateStr timeStr : Arg) :
    -- ajaxDeleteRow
    ((ajaxDeleteRow pg transport url rowEl successMsg d).outcome = .ok () ∧
      (ajaxDeleteRow pg transport url rowEl successMsg d).doc.toasts.length =
        d.toasts.length + 1) ∧
    ((getCSRFToken pg = none ∨ getCSRFToken pg = some []) →
      (ajaxDeleteRow pg transport url rowEl successMsg d).doc =
        showToast (utf16 "No CSRF token") (utf16 "danger") 3500 d) ∧
    (∀ csrf, getCSRFToken pg = some csrf → csrf ≠ [] →
      (transport ⟨utf16 "POST", url, [(utf16 "X-CSRF-Token", csrf)], none,
          utf16 "same-origin"⟩ = .rejected →
        (ajaxDeleteRow pg transport url rowEl successMsg d).doc =
          showToast (utf16 "Network error during delete") (utf16 "danger") 3500 d) ∧
      (∀ s t, transport ⟨utf16 "POST", url, [(utf16 "X-CSRF-Token", csrf)], none,
          utf16 "same-origin"⟩ = .response s (some t) → isOk s = false →
        (ajaxDeleteRow pg transport url rowEl successMsg d).doc =
          showToast (utf16 "Delete failed: " ++ (if t = [] then natToJS s else t))
            (utf16 "danger") 3500 d) ∧
      (∀ s, transport ⟨utf16 "POST", url, [(utf16 "X-CSRF-Token", csrf)], none,
          utf16 "same-origin"⟩ = .response s none → isOk s = false →
        (ajaxDeleteRow pg transport url rowEl successMsg d).doc =
          showToast (utf16 "Network error during delete") (utf16 "danger") 3500 d)) ∧
    -- the live-search handler
    (liveSearch fetchUrl transport v).outcome = .ok () ∧
    ((∀ c ∈ v, isTrimmable c = true) → (liveSearch fetchUrl transport v).innerHTML = []) ∧
    (trim v ≠ [] → encodeURIComponent (trim v) = none →
      (liveSearch fetchUrl transport v).innerHTML =
        utf16 "<div class=\"text-muted\">Network error</div>") ∧
    (∀ e, trim v ≠ [] → encodeURIComponent (trim v) = some e →
      (transport ⟨utf16 "GET", fetchUrl ++ utf16 "?q=" ++ e, [], none, utf16 "same-origin"⟩ =
          .rejected →
        (liveSearch fetchUrl transport v).innerHTML =
          utf16 "<div class=\"text-muted\">Network error</div>") ∧
      (∀ s b, transport ⟨utf16 "GET", fetchUrl ++ utf16 "?q=" ++ e, [], none,
          utf16 "same-origin"⟩ = .response s b → isOk s = false →
        (liveSearch fetchUrl transport v).innerHTML =
          utf16 "<div class=\"text-muted\">Search failed</div>") ∧
      (∀ s, transport ⟨utf16 "GET", fetchUrl ++ utf16 "?q=" ++ e, [], none,
          utf16 "same-origin"⟩ = .response s none → isOk s = true →
        (liveSearch fetchUrl transport v).innerHTML =
          utf16 "<div class=\"text-muted\">Network error</div>")) ∧
    -- checkAvailability
    ((doctorId.truthy = false ∨ dateStr.truthy = false ∨ timeStr.truthy = false) →
      (checkAvailability parse transport doctorId dateStr timeStr).outcome =
        .ok ⟨false, some (some (Json.bool false))⟩) ∧
    (∀ slotUrl, (doctorId.truthy = true ∧ dateStr.truthy = true ∧ timeStr.truthy = true) →
      checkSlotUrl doctorId dateStr timeStr = .ok slotUrl →
      (transport ⟨utf16 "GET", slotUrl, [], none, utf16 "same-origin"⟩ = .rejected →
        (checkAvailability parse transport doctorId dateStr timeStr).outcome =
          .ok ⟨false, none⟩) ∧
      (∀ s b, transport ⟨utf16 "GET", slotUrl, [], none, utf16 "same-origin"⟩ =
          .response s b → isOk s = false →
        (checkAvailability parse transport doctorId dateStr timeStr).outcome =
          .ok ⟨false, none⟩) ∧
      (∀ s, transport ⟨utf16 "GET", slotUrl, [], none, utf16 "same-origin"⟩ =
          .response s none →
        (checkAvailability parse transport doctorId dateStr timeStr).outcome =
          .ok ⟨false, none⟩) ∧
      (∀ s b, transport ⟨utf16 "GET", slotUrl, [], none, utf16 "same-origin"⟩ =
          .response s (some b) → parse b = none →
        (checkAvailability parse transport doctorId dateStr timeStr).outcome =
          .ok ⟨false, none⟩) ∧
      (∃ r, (checkAvailability parse transport doctorId dateStr timeStr).outcome = .ok r)) ∧
    -- ajaxPostJson
    (∀ body, stringify jsonObj = .ok body →
      (∀ s b, transportJ ⟨method, url,
          (utf16 "Content-Type", utf16 "application/json") :: csrfHeader (getCSRFToken pg),
          body, utf16 "same-origin"⟩ = .response s (some b) →
        (ajaxPostJson parse stringify pg transportJ url jsonObj method).outcome =
          .ok ⟨decide (200 ≤ s ∧ s ≤ 299), s, (parse b).getD (Json.str b)⟩) ∧
      (transportJ ⟨method, url,
          (utf16 "Content-Type", utf16 "application/json") :: csrfHeader (getCSRFToken pg),
          body, utf16 "same-origin"⟩ = .rejected →
        (ajaxPostJson parse stringify pg transportJ url jsonObj method).outcome =
          .error Fault.network) ∧
      (∀ s, transportJ ⟨method, url,
          (utf16 "Content-Type", utf16 "application/json") :: csrfHeader (getCSRFToken pg),
          body, utf16 "same-origin"⟩ = .response s none →
        (ajaxPostJson parse stringify pg transportJ url jsonObj method).outcome =
          .error Fault.bodyRead)) ∧
    -- ajaxPostForm
    ((∀ s b, transportF ⟨method, url, csrfHeader (getCSRFToken pg), some formDataObj,
          utf16 "same-origin"⟩ = .response s (some b) →
        (ajaxPostForm pg transportF url formDataObj method).outcome =
          .ok ⟨decide (200 ≤ s ∧ s ≤ 299), s, b⟩) ∧
      (transportF ⟨method, url, csrfHeader (getCSRFToken pg), some formDataObj,
          utf16 "same-origin"⟩ = .rejected →
        (ajaxPostForm pg transportF url formDataObj method).outcome = .error Fault.network) ∧
      (∀ s, transportF ⟨method, url, csrfHeader (getCSRFToken pg), some formDataObj,
          utf16 "same-origin"⟩ = .response s none →
        (ajaxPostForm pg transportF url formDataObj method).outcome =
          .error Fault.bodyRead)) := by
  refine ⟨?_, ?_, ?_, liveSearch_resolves _ _ _, ?_, ?_, ?_, ?_, ?_, ?_, ?_, ?_, ?_⟩
  · obtain ⟨h1, m, t, h2⟩ := ajaxDeleteRow_notifies_once pg transport url rowEl successMsg d
    exact ⟨h1, by rw [h2]; exact length_toasts_showToast _ _ _ _⟩
  · intro h
    unfold ajaxDeleteRow
    rcases h with h | h <;> rw [h] <;> rfl
  · intro csrf hcsrf hne
    exact ajaxDeleteRow_contained pg transport url rowEl successMsg d csrf hcsrf hne
  · intro hws
    have : trim v = [] := (trim_eq_nil v).mpr hws
    unfold liveSearch
    simp [this]
  · intro hne henc
    have hq : (trim v == []) = false := by simpa using hne
    unfold liveSearch
    simp only [hq, henc]
    rfl
  · intro e hne henc
    exact liveSearch_contained fetchUrl transport v e hne henc
  · intro h
    have hc : (!doctorId.truthy || !dateStr.truthy || !timeStr.truthy) = true := by
      rcases h with h | h | h <;> simp [h]
    unfold checkAvailability
    rw [if_pos hc]
  · intro slotUrl htruthy hurl
    obtain ⟨k1, k2, k3, k4, k5, _⟩ :=
      checkAvailability_contained parse transport doctorId dateStr timeStr slotUrl htruthy hurl
    exact ⟨k1, k2, k3, k4, k5⟩
  · intro body hbody
    refine ⟨?_, ?_, ?_⟩
    · intro s b hresp
      unfold ajaxPostJson
      simp only [hbody, hresp]
      rw [isOk_eq]
      cases hp : parse b <;> rfl
    · intro hresp
      unfold ajaxPostJson
      simp only [hbody, hresp]
    · intro s hresp
      unfold ajaxPostJson
      simp only [hbody, hresp]
  · intro s b hresp
    unfold ajaxPostForm
    simp only [hresp]
    rw [isOk_eq]
  · intro hresp
    unfold ajaxPostForm
    simp only [hresp]
  · intro s hresp
    unfold ajaxPostForm
    simp only [hresp]

/-- Witness for C8: a well-formed date and time on a failing transport, and a failure
status with a body that is not JSON for the two post helpers. -/
theorem failures_contained_where_caught_witness :
    (checkAvailability jsonParse (fun _ => FetchResult.rejected) (Arg.int 4)
      (Arg.str (utf16 "2025-01-31")) (Arg.str (utf16 "10:00"))).outcome = .ok ⟨false, none⟩ ∧
    (ajaxPostJson jsonParse (fun _ : Unit => Except.ok (some (utf16 "null"))) ⟨none, none⟩
      (fun _ => FetchResult.response 500 (some (utf16 "oops"))) (utf16 "/api/x") ()
      (utf16 "POST")).outcome = .ok ⟨decide (200 ≤ 500 ∧ 500 ≤ 299), 500,
        (jsonParse (utf16 "oops")).getD (Json.str (utf16 "oops"))⟩ ∧
    (ajaxPostForm ⟨none, none⟩ (fun _ : Request Unit => FetchResult.response 500
      (some (utf16 "oops"))) (utf16 "/api/x") () (utf16 "POST")).outcome =
      .ok ⟨decide (200 ≤ 500 ∧ 500 ≤ 299), 500, utf16 "oops"⟩ ∧
    (liveSearch (utf16 "/search") (fun _ => FetchResult.rejected) (utf16 "flu")).innerHTML =
      utf16 "<div class=\"text-muted\">Network error</div>" :=
  ⟨((failures_contained_where_caught jsonParse (fun _ : Unit => Except.ok (some (utf16 "null")))
      ⟨none, none⟩ (fun _ => FetchResult.rejected)
      (fun _ => FetchResult.response 500 (some (utf16 "oops")))
      (fun _ : Request Unit => FetchResult.response 500 (some (utf16 "oops")))
      (utf16 "/api/x") (utf16 "POST") (utf16 "Deleted") (utf16 "/search") (utf16 "flu")
      () () none ⟨0, 0, 0, [], []⟩ (Arg.int 4) (Arg.str (utf16 "2025-01-31"))
      (Arg.str (utf16 "10:00"))).2.2.2.2.2.2.2.2.1
      (utf16 "/api/check_slot?doctor_id=4&date=2025-01-31&time=10%3A00")
      ⟨by decide, by decide, by decide⟩ rfl).1 rfl,
   ((failures_contained_where_caught jsonParse (fun _ : Unit => Except.ok (some (utf16 "null")))
      ⟨none, none⟩ (fun _ => FetchResult.rejected)
      (fun _ => FetchResult.response 500 (some (utf16 "oops")))
      (fun _ : Request Unit => FetchResult.response 500 (some (utf16 "oops")))
      (utf16 "/api/x") (utf16 "POST") (utf16 "Deleted") (utf16 "/search") (utf16 "flu")
      () () none ⟨0, 0, 0, [], []⟩ (Arg.int 4) (Arg.str (utf16 "2025-01-31"))
      (Arg.str (utf16 "10:00"))).2.2.2.2.2.2.2.2.2.1 (some (utf16 "null")) rfl).1
      500 (utf16 "oops") rfl,
   (failures_contained_where_caught jsonParse (fun _ : Unit => Except.ok (some (utf16 "null")))
      ⟨none, none⟩ (fun _ => FetchResult.rejected)
      (fun _ => FetchResult.response 500 (some (utf16 "oops")))
      (fun _ : Request Unit => FetchResult.response 500 (some (utf16 "oops")))
      (utf16 "/api/x") (utf16 "POST") (utf16 "Deleted") (utf16 "/search") (utf16 "flu")
      () () none ⟨0, 0, 0, [], []⟩ (Arg.int 4) (Arg.str (utf16 "2025-01-31"))
      (Arg.str (utf16 "10:00"))).2.2.2.2.2.2.2.2.2.2.1 500 (utf16 "oops") rfl,
   ((failures_contained_where_caught jsonParse (fun _ : Unit => Except.ok (some (utf16 "null")))
      ⟨none, none⟩ (fun _ => FetchResult.rejected)
      (fun _ => FetchResult.response 500 (some (utf16 "oops")))
      (fun _ : Request Unit => FetchResult.response 500 (some (utf16 "oops")))
      (utf16 "/api/x") (utf16 "POST") (utf16 "Deleted") (utf16 "/search") (utf16 "flu")
      () () none ⟨0, 0, 0, [], []⟩ (Arg.int 4) (Arg.str (utf16 "2025-01-31"))
      (Arg.str (utf16 "10:00"))).2.2.2.2.2.2.1 (utf16 "flu") (by decide) (by decide)).1 rfl⟩

/-- Witness for C9: a success toast with the default timeout on a page without a
container, observed after a wait up to time 3500, and after a wait up to time 3499. -/
theorem showToast_adds_one_self_removing_witness :
    (∀ x ∈ ((showToast (utf16 "Saved") Severity.success.name defaultToastTimeout
        ⟨0, 0, 0, [], []⟩).run ([] ++ ToastEvent.wait 3500 :: [])).toasts, x.el ≠ 0) ∧
    (∃ x ∈ ((showToast (utf16 "Saved") Severity.success.name defaultToastTimeout
        ⟨0, 0, 0, [], []⟩).run [ToastEvent.wait 3499]).toasts, x.el = 0) :=
  ⟨(showToast_adds_one_self_removing (utf16 "Saved") Severity.success defaultToastTimeout
      ⟨0, 0, 0, [], []⟩ (by decide) (by decide) (by decide)).2.2.2.2.1 [] 3500 []
      (by decide),
   (showToast_adds_one_self_removing (utf16 "Saved") Severity.success defaultToastTimeout
      ⟨0, 0, 0, [], []⟩ (by decide) (by decide) (by decide)).2.2.2.2.2.2
      (by simp) [ToastEvent.wait 3499]
      (by intro ev hev; rw [List.mem_singleton] at hev; rw [hev]; show 3499 < 0 + 3500; omega)⟩

/-- C9 as stated fails in two ways. For the message `<!--` the markup of the toast
opens a comment that swallows the close button: the element added has no close
control. And a toast shown with a timeout of 2147483648 ms, which `setTimeout` keeps as
0, is removed by a wait of 100 ms, long before its timeout has elapsed, while the toast
shown after it with timeout 3500 stays. -/
theorem showToast_markup_and_timeout_overflow :
    (showToast (utf16 "<!--") (utf16 "info") 3500 ⟨0, 0, 0, [], []⟩).toasts.map
      (fun x => x.closeControl) = [some false] ∧
    (showToast (utf16 "B") (utf16 "info") 3500
      (showToast (utf16 "A") (utf16 "info") 2147483648 ⟨0, 0, 0, [], []⟩)).toasts.map
      (fun x => x.el) = [0, 1] ∧
    ((showToast (utf16 "B") (utf16 "info") 3500
      (showToast (utf16 "A") (utf16 "info") 2147483648 ⟨0, 0, 0, [], []⟩)).advance 100).toasts.map
      (fun x => x.el) = [1] :=
  ⟨by decide, by decide, by decide⟩

end HospitalApp
